import Mathlib

/-!
Verification of the Tray-Sentinel custody-ledger core (`src/app` of the
repository) against its natural-language specification.

The Python modules `app/ledger.py`, `app/rbac.py`, `app/main.py`,
`app/utils.py`, `app/signing.py` and `app/evidence_crypto.py` are shallowly
embedded below.  Conventions of the embedding:

* JSON values (Python dicts produced by `json.loads` / consumed by
  `json.dumps`) are the type `Json` (a mutual inductive with explicit
  spine types `JArr` and `JObj` for arrays and objects).  Python dict
  insertion order is the order of the `JObj` spine; `json.dumps(sort_keys)`
  sorts keys at serialization time, as the source does.
* Byte strings are `String`.  The SHA-256 digest of `app/utils.sha256_bytes`
  is modelled by the injective tagging function `sha256_bytes s = "H(" ++ s
  ++ ")"`: the properties the ledger relies on are determinism and
  collision-freeness, which the tag gives by construction.
* Ed25519 signing (`app/signing.py`) is modelled by its contract: key
  material of a user is the user id, `pubkey_b64` tags it, and
  `verify_signature` accepts exactly the string `sign_b64` produces for the
  same public key and payload (deterministic signatures, correctness and
  unforgeability of Ed25519 idealized).
* Fallible Python code (`raise`) becomes `Except`/`Option`; an uncaught
  exception inside `validate_chain` (e.g. a ledger line that is not a JSON
  object) is `Option.none`.
* Nondeterministic environment inputs (`uuid.uuid4()`, `utcnow_iso()`) are
  explicit parameters of the embedded operations.
* The JSON reader/writer models the fragment of Python `json` that the
  application exercises: integers (no floats), strings with the standard
  escape sequences, `ensure_ascii` is only modelled for code points below
  0x20 (all application data is printable ASCII).
-/

namespace Sentinel

mutual
/-- A JSON value, as produced by Python `json.loads`. -/
inductive Json where
  | null
  | bool (b : Bool)
  | num (n : Int)
  | str (s : String)
  | arr (xs : JArr)
  | obj (kvs : JObj)
  deriving DecidableEq, Repr

/-- Spine of a JSON array. -/
inductive JArr where
  | nil
  | cons (hd : Json) (tl : JArr)
  deriving DecidableEq, Repr

/-- Spine of a JSON object: key/value pairs in dict insertion order. -/
inductive JObj where
  | nil
  | cons (k : String) (v : Json) (tl : JObj)
  deriving DecidableEq, Repr
end

/-- Python truthiness (`if x:`) of a JSON value. -/
def truthy : Json → Bool
  | .null => false
  | .bool b => b
  | .num n => n != 0
  | .str s => s != ""
  | .arr .nil => false
  | .arr (.cons _ _) => true
  | .obj .nil => false
  | .obj (.cons _ _ _) => true

/-- Python truthiness of a `dict.get` result (`None` when the key is absent). -/
def truthyOpt : Option Json → Bool
  | none => false
  | some j => truthy j

/-- `kvs[k]` lookup on an object spine (`dict.get`). -/
def jobjGet : JObj → String → Option Json
  | .nil, _ => none
  | .cons k v tl, key => if k = key then some v else jobjGet tl key

/-- `dict.pop(k, None)`: the object without key `k`. -/
def jobjPop : JObj → String → JObj
  | .nil, _ => .nil
  | .cons k v tl, key => if k = key then jobjPop tl key else .cons k v (jobjPop tl key)

/-- `d[k] = v` on a Python dict: replace in place if present, else append. -/
def jobjSet : JObj → String → Json → JObj
  | .nil, key, v => .cons key v .nil
  | .cons k w tl, key, v =>
      if k = key then .cons k v tl else .cons k w (jobjSet tl key v)

/-- `row.get(k)` on a JSON value; a non-object has no `.get` (the Python
call would raise `AttributeError`, which never happens on the paths the
application takes — callers below guard object-ness where the source can
raise). -/
def getKey : Json → String → Option Json
  | .obj kvs, k => jobjGet kvs k
  | _, _ => none

/-- `JArr` as a Lean list, for stating properties. -/
def jarrToList : JArr → List Json
  | .nil => []
  | .cons x tl => x :: jarrToList tl

/-- Lexicographic order on code points — how Python compares strings when
sorting dict keys. -/
def charListLe : List Char → List Char → Bool
  | [], _ => true
  | _ :: _, [] => false
  | a :: as, b :: bs =>
      if a.toNat < b.toNat then true
      else if b.toNat < a.toNat then false
      else charListLe as bs

def strLe (a b : String) : Bool := charListLe a.data b.data

/-- Insert one key/value pair into a key-sorted object spine
(insertion-sort step for `json.dumps(sort_keys=True)`). -/
def jobjSortInsert (k : String) (v : Json) : JObj → JObj
  | .nil => .cons k v .nil
  | .cons k2 v2 tl =>
      if strLe k k2 then .cons k v (.cons k2 v2 tl)
      else .cons k2 v2 (jobjSortInsert k v tl)

/-- Sort an object spine by key, as `json.dumps(sort_keys=True)` does
(`sorted(d.items())`; keys of a Python dict are unique). -/
def jobjSort : JObj → JObj
  | .nil => .nil
  | .cons k v tl => jobjSortInsert k v (jobjSort tl)

/-- Four-digit lowercase hex, for `\uXXXX` escapes. -/
def hex4 (n : Nat) : String :=
  let d := fun (m : Nat) => (Nat.digitChar (m % 16))
  String.mk [d (n / 4096), d (n / 256), d (n / 16), d n]

/-- JSON string escaping as performed by `json.dumps` (the fragment for
code points the application emits). -/
def escChar (c : Char) : String :=
  if c = '"' then "\\\""
  else if c = '\\' then "\\\\"
  else if c = '\n' then "\\n"
  else if c = '\t' then "\\t"
  else if c = '\r' then "\\r"
  else if c.toNat = 8 then "\\b"
  else if c.toNat = 12 then "\\f"
  else if c.toNat < 32 then "\\u" ++ hex4 c.toNat
  else String.singleton c

def escString (s : String) : String :=
  String.join (s.data.map escChar)

/-- A JSON string literal: quotes plus escaping. -/
def jstr (s : String) : String := "\"" ++ escString s ++ "\""

mutual
/-- Recursively sort every object of a JSON value by key (the effect
`sort_keys=True` has at every nesting level). -/
def sortJson : Json → Json
  | .null => .null
  | .bool b => .bool b
  | .num n => .num n
  | .str s => .str s
  | .arr xs => .arr (sortArrVals xs)
  | .obj kvs => .obj (jobjSort (sortObjVals kvs))

def sortArrVals : JArr → JArr
  | .nil => .nil
  | .cons x tl => .cons (sortJson x) (sortArrVals tl)

def sortObjVals : JObj → JObj
  | .nil => .nil
  | .cons k v tl => .cons k (sortJson v) (sortObjVals tl)
end

mutual
/-- Serialize a value in spine order with separators `isep`/`ksep`. -/
def dumpsRawJ (isep ksep : String) : Json → String
  | .null => "null"
  | .bool b => if b then "true" else "false"
  | .num n => toString n
  | .str s => jstr s
  | .arr xs => "[" ++ dumpsRawA isep ksep xs ++ "]"
  | .obj kvs => "\x7b" ++ dumpsRawO isep ksep kvs ++ "\x7d"

def dumpsRawA (isep ksep : String) : JArr → String
  | .nil => ""
  | .cons x .nil => dumpsRawJ isep ksep x
  | .cons x (.cons y tl) =>
      dumpsRawJ isep ksep x ++ isep ++ dumpsRawA isep ksep (.cons y tl)

def dumpsRawO (isep ksep : String) : JObj → String
  | .nil => ""
  | .cons k v .nil => jstr k ++ ksep ++ dumpsRawJ isep ksep v
  | .cons k v (.cons k2 v2 tl) =>
      jstr k ++ ksep ++ dumpsRawJ isep ksep v ++ isep ++ dumpsRawO isep ksep (.cons k2 v2 tl)
end

/-- `json.dumps(x, sort_keys=True, separators=(isep, ksep))`. -/
def dumpsJ (isep ksep : String) (j : Json) : String :=
  dumpsRawJ isep ksep (sortJson j)

/-- The canonical serialization of the source: `json.dumps(x, sort_keys=True,
separators=(",", ":"))` — the sole input of hashing and signing. -/
def dumpsMin (j : Json) : String := dumpsJ "," ":" j

/-- The ledger-file serialization of the source: `json.dumps(x,
sort_keys=True)` (default separators `", "` and `": "`). -/
def dumpsPy (j : Json) : String := dumpsJ ", " ": " j

/-- `app/utils.sha256_bytes`, idealized as an injective digest (see the
header comment). -/
def sha256_bytes (s : String) : String := "H(" ++ s ++ ")"

/-- `app/signing.get_or_create_user_keys`: key material of a user, created
deterministically on first use; modelled as the user id itself. -/
def get_or_create_user_keys (user_id : String) : String := user_id

/-- `app/signing.pubkey_b64`: the (base64) raw public key of key material. -/
def pubkey_b64 (km : String) : String := "PUB(" ++ km ++ ")"

/-- The unique signature that the key with public key `pub` produces over
`payload` (Ed25519 signatures are deterministic). -/
def mkSig (pub payload : String) : String := "SIG(" ++ pub ++ "|" ++ payload ++ ")"

/-- `app/signing.sign_b64`. -/
def sign_b64 (km payload : String) : String := mkSig (pubkey_b64 km) payload

/-- `app/signing.verify_signature`: `True` exactly on a valid signature;
any decoding failure (non-string arguments and the like) is `False`.
The arguments are the raw `row.get` results, as in `validate_chain`. -/
def verify_signature (pub sig : Option Json) (payload : String) : Bool :=
  match pub, sig with
  | some (.str p), some (.str s) => s == mkSig p payload
  | _, _ => false

/-! ## `app/rbac.py` -/

/-- `rbac.Role`. -/
inductive Role where
  | FIELD_OFFICER
  | FORENSIC_ANALYST
  | SUPERVISOR
  | PROSECUTOR
  | JUDGE
  | SYSTEM_AUDITOR
  deriving DecidableEq, Repr

/-- `rbac.Action`. -/
inductive Action where
  | REGISTER_EVIDENCE
  | RECORD_EVENT
  | VERIFY_INTEGRITY
  | VIEW_EVIDENCE
  | GENERATE_REPORT
  deriving DecidableEq, Repr

/-- `Role.value`. -/
def roleStr : Role → String
  | .FIELD_OFFICER => "FIELD_OFFICER"
  | .FORENSIC_ANALYST => "FORENSIC_ANALYST"
  | .SUPERVISOR => "SUPERVISOR"
  | .PROSECUTOR => "PROSECUTOR"
  | .JUDGE => "JUDGE"
  | .SYSTEM_AUDITOR => "SYSTEM_AUDITOR"

/-- `Action.value`. -/
def actionStr : Action → String
  | .REGISTER_EVIDENCE => "REGISTER_EVIDENCE"
  | .RECORD_EVENT => "RECORD_EVENT"
  | .VERIFY_INTEGRITY => "VERIFY_INTEGRITY"
  | .VIEW_EVIDENCE => "VIEW_EVIDENCE"
  | .GENERATE_REPORT => "GENERATE_REPORT"

/-- `rbac.ROLE_ACTIONS` (a dict of sets in the source; only membership is
ever consulted). -/
def ROLE_ACTIONS : Role → List Action
  | .FIELD_OFFICER => [.REGISTER_EVIDENCE, .RECORD_EVENT, .VERIFY_INTEGRITY, .VIEW_EVIDENCE]
  | .FORENSIC_ANALYST => [.RECORD_EVENT, .VERIFY_INTEGRITY, .VIEW_EVIDENCE]
  | .SUPERVISOR => [.RECORD_EVENT, .VERIFY_INTEGRITY, .VIEW_EVIDENCE, .GENERATE_REPORT]
  | .PROSECUTOR => [.VIEW_EVIDENCE, .GENERATE_REPORT]
  | .JUDGE => [.VIEW_EVIDENCE, .GENERATE_REPORT]
  | .SYSTEM_AUDITOR => [.VIEW_EVIDENCE, .GENERATE_REPORT]

/-- `rbac.Principal`. -/
structure Principal where
  user_id : String
  role : Role
  org_id : String
  deriving DecidableEq, Repr

/-- `rbac.require_action`: `PermissionError` becomes `Except.error`. -/
def require_action (p : Principal) (a : Action) : Except String Unit :=
  if a ∈ ROLE_ACTIONS p.role then .ok ()
  else .error ("role " ++ roleStr p.role ++ " not permitted to perform " ++ actionStr a)

/-- `rbac.requires_endorsement`. -/
def requires_endorsement (action_type : String) : Bool :=
  action_type == "TRANSFER" || action_type == "COURT_SUBMISSION"

/-- `rbac.required_endorser_org_count`. -/
def required_endorser_org_count (action_type : String) : Int :=
  if requires_endorsement action_type then 2 else 1

/-! ## `app/ledger.py` — data model and endorsement computation

The ledger file is modelled at two levels.  The operational level used by
`append_event` / `endorse_event` / `compute_endorsement_status` is the list
of parsed rows (`List Json`) — `_iter_rows` parses each written line back
into exactly the dict that was serialized.  The raw byte level
(`List String` of physical lines) is modelled further below for
`validate_chain`, whose claims concern byte-level tampering. -/

/-- `ledger.LedgerEvent` (dataclass). -/
structure LedgerEvent where
  tx_id : String
  evidence_id : String
  action_type : String
  required_endorser_orgs : Int
  actor_user_id : String
  actor_role : String
  actor_org_id : String
  timestamp : String
  presented_sha256 : Option String
  expected_sha256 : String
  integrity_ok : Bool
  prev_hash : String
  record_hash : String
  endorsement_status : String
  endorsements : JArr
  details : Json
  signer_pubkey_b64 : String
  signature_b64 : String
  deriving DecidableEq, Repr

/-- Build an object spine from a Lean list (dict literals of the source;
keys of every use are distinct). -/
def jobjOfList : List (String × Json) → JObj
  | [] => .nil
  | (k, v) :: tl => .cons k v (jobjOfList tl)

/-- An optional string field (`None` → JSON null). -/
def optStr : Option String → Json
  | none => .null
  | some s => .str s

def isObj : Json → Bool
  | .obj _ => true
  | _ => false

/-- Python-hashable JSON values (usable as dict keys / set members). -/
def jhashable : Json → Bool
  | .arr _ => false
  | .obj _ => false
  | _ => true

/-- `Ledger._signing_payload`: canonical JSON of the record minus
`record_hash`, `signer_pubkey_b64`, `signature_b64`. -/
def signing_payload (kvs : JObj) : String :=
  dumpsMin (.obj (jobjPop (jobjPop (jobjPop kvs "record_hash") "signer_pubkey_b64") "signature_b64"))

/-- `Ledger.last_hash`: the `record_hash` of the last row, `"GENESIS"` when
the ledger is empty.  (The source indexes `row["record_hash"]`, raising
`KeyError` on a malformed row; rows written by the application always carry
a string `record_hash`, and on such rows the fallback branch is dead.) -/
def last_hash_go (last : String) : List Json → String
  | [] => last
  | row :: rest =>
      last_hash_go
        (match getKey row "record_hash" with
         | some (.str h) => h
         | _ => last) rest

def last_hash (rows : List Json) : String := last_hash_go "GENESIS" rows

/-- The contribution of one row to `Ledger._endorsements_by_tx`, specialized
at the single key `tx` that `endorser_orgs_for_tx` queries: the row's
`actor_org_id` when the row is an ENDORSE row whose truthy
`details.endorsed_tx_id` equals `tx` and whose `actor_org_id` is truthy. -/
def endorseOrgOf (tx : String) (row : Json) : Option Json :=
  match row with
  | .obj kvs =>
    if jobjGet kvs "action_type" ≠ some (.str "ENDORSE") then none
    else
      let dj := match jobjGet kvs "details" with
                | some d => if truthy d then d else .obj .nil
                | none => .obj .nil
      match getKey dj "endorsed_tx_id" with
      | some etx =>
        if !truthy etx then none
        else if etx ≠ .str tx then none
        else match jobjGet kvs "actor_org_id" with
             | some org => if truthy org then some org else none
             | none => none
      | none => none
  | _ => none

/-- `Ledger.endorser_orgs_for_tx` (the set `_endorsements_by_tx()[tx]`). -/
def endorser_orgs_for_tx (rows : List Json) (tx : String) : Finset Json :=
  (rows.filterMap (endorseOrgOf tx)).toFinset

/-- One row is scannable by `_endorsements_by_tx` without an uncaught
exception: it is a dict, and when it is an ENDORSE row its `details` (after
`or` with the empty dict) is a dict and the values used as dict key / set
member are hashable.  Application-written rows always satisfy this. -/
def scanSafeRow (row : Json) : Bool :=
  match row with
  | .obj kvs =>
    match jobjGet kvs "action_type" with
    | some (.str "ENDORSE") =>
      let dj := match jobjGet kvs "details" with
                | some d => if truthy d then some d else none
                | none => none
      match dj with
      | none => true
      | some d =>
        isObj d &&
          (let etx := getKey d "endorsed_tx_id"
           !truthyOpt etx ||
             (jhashable (etx.getD .null) &&
               (let org := jobjGet kvs "actor_org_id"
                !truthyOpt org || jhashable (org.getD .null))))
    | _ => true
  | _ => false

def scanSafe (rows : List Json) : Bool := rows.all scanSafeRow

/-- The loop of `compute_endorsement_status` that adds the org of each
write-time endorsement of the event (when truthy) to the endorser set. -/
def addEndorsementOrgs (base : Finset Json) : JArr → Finset Json
  | .nil => base
  | .cons e tl =>
      addEndorsementOrgs
        (match getKey e "org_id" with
         | some org => if truthy org then insert org base else base
         | none => base) tl

/-- The entries of `ev.endorsements` can be iterated by
`compute_endorsement_status` without an uncaught exception. -/
def eventEndorsementsSafe (ev : LedgerEvent) : Bool :=
  (jarrToList ev.endorsements).all fun e =>
    isObj e && (!truthyOpt (getKey e "org_id") || jhashable ((getKey e "org_id").getD .null))

/-- `Ledger.compute_endorsement_status`: returns
`(status, unique_endorser_orgs, required_orgs)`. -/
def compute_endorsement_status (rows : List Json) (ev : LedgerEvent) : String × Nat × Int :=
  let required : Int := max 1 ev.required_endorser_orgs
  let endorsed := addEndorsementOrgs (endorser_orgs_for_tx rows ev.tx_id) ev.endorsements
  let unique := endorsed.card
  let status := if (unique : Int) ≥ required then "FINAL" else "PENDING_ENDORSEMENT"
  (status, unique, required)


/-! ## `app/ledger.py` — write side -/

/-- Arguments of `Ledger.append_event`, together with the environment
inputs it draws itself (`uuid.uuid4()` and `utcnow_iso()`). -/
structure AppendArgs where
  evidence_id : String
  action_type : String
  principal : Principal
  expected_sha256 : String
  presented_sha256 : Option String
  integrity_ok : Bool
  details : Json
  endorse : Bool
  tx_id : String
  timestamp : String
  deriving Repr

/-- `len({e['org_id'] for e in endorsements})` at write time. -/
def writeTimeOrgCount (endorsements : JArr) : Nat :=
  (((jarrToList endorsements).filterMap (fun e => getKey e "org_id")).toFinset).card

/-- The signing/hashing steps shared verbatim by `append_event` and
`endorse_event` (ledger.py lines 148-155 and 186-193): attach
`signer_pubkey_b64`, sign the signing payload, attach `signature_b64`,
hash the canonical record, attach `record_hash`.  Returns the finished row
together with the attached public key, signature and record hash.
The application always constructs the ledger with a `base_dir`, so the
`base_dir` guard of the source never fires. -/
def sealRow (user_id : String) (canonical0 : JObj) : JObj × String × String × String :=
  let km := get_or_create_user_keys user_id
  let pub := pubkey_b64 km
  let c1 := jobjSet canonical0 "signer_pubkey_b64" (.str pub)
  let sig := sign_b64 km (signing_payload c1)
  let c2 := jobjSet c1 "signature_b64" (.str sig)
  let rh := sha256_bytes (dumpsMin (.obj c2))
  (jobjSet c2 "record_hash" (.str rh), pub, sig, rh)

/-- The write-time endorsement list of `append_event`. -/
def appendEndorsements (a : AppendArgs) : JArr :=
  if a.endorse then
    .cons (.obj (jobjOfList
      [("org_id", .str a.principal.org_id), ("user_id", .str a.principal.user_id)])) .nil
  else .nil

/-- The write-time `endorsement_status` snapshot of `append_event`. -/
def appendStatus (a : AppendArgs) : String :=
  if (writeTimeOrgCount (appendEndorsements a) : Int) ≥ required_endorser_org_count a.action_type
  then "FINAL" else "PENDING_ENDORSEMENT"

/-- The `canonical` dict `append_event` assembles before signing (ledger.py
lines 130-146), in dict insertion order. -/
def appendCanonical (rows : List Json) (a : AppendArgs) : JObj := jobjOfList
  [("tx_id", .str a.tx_id),
   ("evidence_id", .str a.evidence_id),
   ("action_type", .str a.action_type),
   ("required_endorser_orgs", .num (required_endorser_org_count a.action_type)),
   ("actor_user_id", .str a.principal.user_id),
   ("actor_role", .str (roleStr a.principal.role)),
   ("actor_org_id", .str a.principal.org_id),
   ("timestamp", .str a.timestamp),
   ("presented_sha256", optStr a.presented_sha256),
   ("expected_sha256", .str a.expected_sha256),
   ("integrity_ok", .bool a.integrity_ok),
   ("prev_hash", .str (last_hash rows)),
   ("endorsement_status", .str (appendStatus a)),
   ("endorsements", .arr (appendEndorsements a)),
   ("details", a.details)]

/-- `Ledger.append_event`: the returned `LedgerEvent` and the ledger with
the new row appended.  The physical write serializes the row with
`json.dumps(sort_keys=True)`; at this level the ledger is its parsed
content. -/
def append_event (rows : List Json) (a : AppendArgs) : LedgerEvent × List Json :=
  let prev_hash := last_hash rows
  let required_orgs : Int := required_endorser_org_count a.action_type
  let endorsements : JArr := appendEndorsements a
  let endorsement_status := appendStatus a
  let sealed := sealRow a.principal.user_id (appendCanonical rows a)
  let ev : LedgerEvent :=
    { tx_id := a.tx_id
      evidence_id := a.evidence_id
      action_type := a.action_type
      required_endorser_orgs := required_orgs
      actor_user_id := a.principal.user_id
      actor_role := roleStr a.principal.role
      actor_org_id := a.principal.org_id
      timestamp := a.timestamp
      presented_sha256 := a.presented_sha256
      expected_sha256 := a.expected_sha256
      integrity_ok := a.integrity_ok
      prev_hash := prev_hash
      record_hash := sealed.2.2.2
      endorsement_status := endorsement_status
      endorsements := endorsements
      details := a.details
      signer_pubkey_b64 := sealed.2.1
      signature_b64 := sealed.2.2.1 }
  (ev, rows ++ [.obj sealed.1])

/-- The `canonical` dict `endorse_event` assembles before signing
(ledger.py lines 168-184), in dict insertion order. -/
def endorseCanonical (rows : List Json) (tx_id evidence_id : String) (p : Principal)
    (uuid timestamp : String) : JObj := jobjOfList
  [("tx_id", .str uuid),
   ("evidence_id", .str evidence_id),
   ("action_type", .str "ENDORSE"),
   ("required_endorser_orgs", .num 1),
   ("actor_user_id", .str p.user_id),
   ("actor_role", .str (roleStr p.role)),
   ("actor_org_id", .str p.org_id),
   ("timestamp", .str timestamp),
   ("presented_sha256", .null),
   ("expected_sha256", .str ""),
   ("integrity_ok", .bool true),
   ("prev_hash", .str (last_hash rows)),
   ("endorsement_status", .str "FINAL"),
   ("endorsements", .arr
     (.cons (.obj (jobjOfList [("org_id", .str p.org_id), ("user_id", .str p.user_id)])) .nil)),
   ("details", .obj (jobjOfList [("endorsed_tx_id", .str tx_id)]))]

/-- `Ledger.endorse_event`: raises (`Except.error`) on a duplicate
endorsement from the same org; otherwise appends a new ENDORSE row
referencing `tx_id`.  `uuid` and `timestamp` are the environment inputs. -/
def endorse_event (rows : List Json) (tx_id evidence_id : String) (p : Principal)
    (uuid timestamp : String) : Except String (LedgerEvent × List Json) :=
  if Json.str p.org_id ∈ endorser_orgs_for_tx rows tx_id then
    .error "duplicate endorsement from org"
  else
    let prev_hash := last_hash rows
    let endorsements : JArr :=
      .cons (.obj (jobjOfList [("org_id", .str p.org_id), ("user_id", .str p.user_id)])) .nil
    let details : Json := .obj (jobjOfList [("endorsed_tx_id", .str tx_id)])
    let sealed := sealRow p.user_id (endorseCanonical rows tx_id evidence_id p uuid timestamp)
    let ev : LedgerEvent :=
      { tx_id := uuid
        evidence_id := evidence_id
        action_type := "ENDORSE"
        required_endorser_orgs := 1
        actor_user_id := p.user_id
        actor_role := roleStr p.role
        actor_org_id := p.org_id
        timestamp := timestamp
        presented_sha256 := none
        expected_sha256 := ""
        integrity_ok := true
        prev_hash := prev_hash
        record_hash := sealed.2.2.2
        endorsement_status := "FINAL"
        endorsements := endorsements
        details := details
        signer_pubkey_b64 := sealed.2.1
        signature_b64 := sealed.2.2.1 }
    .ok (ev, rows ++ [.obj sealed.1])

/-! ## `app/ledger.py` — `validate_chain` over parsed rows -/

/-- Python `expected != record_hash` where `expected` is a `str` and
`record_hash` an arbitrary `row.get` result: equal only to the same string. -/
def jeqStr (o : Option Json) (s : String) : Bool :=
  match o with
  | some (.str t) => t == s
  | _ => false

/-- The recomputed `record_hash` of a row: SHA-256 of the canonical JSON of
the row minus `record_hash`. -/
def rowHash (kvs : JObj) : String :=
  sha256_bytes (dumpsMin (.obj (jobjPop kvs "record_hash")))

/-- The per-row body of the `validate_chain` loop, given the running
`prev`. -/
def rowOk (prev : String) (kvs : JObj) : Bool × String :=
  let expected := rowHash kvs
  if !jeqStr (jobjGet kvs "record_hash") expected then (false, "record hash mismatch")
  else if !jeqStr (jobjGet kvs "prev_hash") prev then (false, "prev_hash mismatch")
  else
    let signer_pub := jobjGet kvs "signer_pubkey_b64"
    let sig := jobjGet kvs "signature_b64"
    if !truthyOpt signer_pub || !truthyOpt sig then (false, "missing signature")
    else if !verify_signature signer_pub sig (signing_payload kvs) then
      (false, "invalid signature")
    else (true, "ok")

/-- The `validate_chain` loop over parsed rows.  On a passing row the
source continues with `prev = record_hash`, the stored value, which the
passed check has just proved equal to the recomputed `rowHash`.  A non-dict
row raises (`row.get` on it has no meaning): `none`. -/
def validateAux : String → List Json → Option (Bool × String)
  | _, [] => some (true, "ok")
  | prev, .obj kvs :: rest =>
      match rowOk prev kvs with
      | (true, _) => validateAux (rowHash kvs) rest
      | res => some res
  | _, _ :: _ => none

/-- `Ledger.validate_chain` on an already-parsed ledger. -/
def validate_chain_rows (rows : List Json) : Option (Bool × String) :=
  validateAux "GENESIS" rows

/-- The chain-linking property in the words of the specification: each
row's `prev_hash` equals the `record_hash` of the row before it, and the
first row's is the literal `"GENESIS"`. -/
def chainLinked : String → List Json → Bool
  | _, [] => true
  | prev, row :: rest =>
      jeqStr (getKey row "prev_hash") prev &&
        (match getKey row "record_hash" with
         | some (.str h) => chainLinked h rest
         | _ => false)

/-! ## Operational model: finite sequences of ledger operations -/

/-- One successful-or-attempted ledger operation. -/
inductive LedgerOp where
  | append (a : AppendArgs)
  | endorse (tx_id evidence_id : String) (p : Principal) (uuid timestamp : String)

/-- Apply one operation; a failing `endorse_event` raises and leaves the
file untouched. -/
def stepOp (rows : List Json) : LedgerOp → List Json
  | .append a => (append_event rows a).2
  | .endorse tx eid p u t =>
      match endorse_event rows tx eid p u t with
      | .ok r => r.2
      | .error _ => rows

/-- The ledger after a finite sequence of operations from the empty file. -/
def runOps (ops : List LedgerOp) : List Json := ops.foldl stepOp []

/-! ## The ledger file at byte level: Python `json.loads` and `str.strip`

`_iter_rows` reads physical lines, strips them, skips blanks and parses the
remainder with `json.loads`.  The parser below models the JSON fragment the
application reads and writes (integers, escaped strings, arrays, objects;
duplicate object keys keep the last value, as a Python dict does).  A
parse failure is an uncaught `json.JSONDecodeError`: `none`. -/

def lbrace : Char := Char.ofNat 123
def rbrace : Char := Char.ofNat 125

/-- JSON inter-token whitespace (`json.loads`). -/
def isJsonWs (c : Char) : Bool := c = ' ' || c = '\t' || c = '\n' || c = '\r'

def skipWs (cs : List Char) : List Char := cs.dropWhile isJsonWs

/-- Whitespace stripped by Python `str.strip()` (the ASCII fragment). -/
def isPyWs (c : Char) : Bool :=
  c = ' ' || c = '\t' || c = '\n' || c = '\r' || c.toNat = 11 || c.toNat = 12

def pyStrip (s : String) : String :=
  String.mk (((s.data.dropWhile isPyWs).reverse.dropWhile isPyWs).reverse)

/-- Decode a single-character escape. -/
def escDecode (c : Char) : Option Char :=
  if c = '"' then some '"'
  else if c = '\\' then some '\\'
  else if c = '/' then some '/'
  else if c = 'n' then some '\n'
  else if c = 't' then some '\t'
  else if c = 'r' then some '\r'
  else if c = 'b' then some (Char.ofNat 8)
  else if c = 'f' then some (Char.ofNat 12)
  else none

def hexVal (c : Char) : Option Nat :=
  if 48 ≤ c.toNat ∧ c.toNat ≤ 57 then some (c.toNat - 48)
  else if 97 ≤ c.toNat ∧ c.toNat ≤ 102 then some (c.toNat - 87)
  else if 65 ≤ c.toNat ∧ c.toNat ≤ 70 then some (c.toNat - 55)
  else none

/-- Body of a JSON string after the opening quote: the decoded characters
and the input after the closing quote. -/
def parseStrBody : List Char → Option (List Char × List Char)
  | [] => none
  | c :: rest =>
    if c = '"' then some ([], rest)
    else if c = '\\' then
      match rest with
      | 'u' :: a :: b :: c2 :: d :: rest2 =>
        match hexVal a, hexVal b, hexVal c2, hexVal d with
        | some ha, some hb, some hc, some hd =>
          (parseStrBody rest2).map
            (fun r => (Char.ofNat (ha * 4096 + hb * 256 + hc * 16 + hd) :: r.1, r.2))
        | _, _, _, _ => none
      | e :: rest2 =>
        match escDecode e with
        | some ch => (parseStrBody rest2).map (fun r => (ch :: r.1, r.2))
        | none => none
      | [] => none
    else (parseStrBody rest).map (fun r => (c :: r.1, r.2))

def natOfDigits (ds : List Char) : Nat :=
  ds.foldl (fun acc c => acc * 10 + (c.toNat - 48)) 0

/-- A run of decimal digits. -/
def parseDigits (cs : List Char) : Option (Nat × List Char) :=
  let ds := cs.takeWhile Char.isDigit
  if ds.isEmpty then none else some (natOfDigits ds, cs.drop ds.length)

def jarrOfList : List Json → JArr
  | [] => .nil
  | x :: tl => .cons x (jarrOfList tl)

mutual
/-- Recursive-descent JSON value parser (fuel-indexed; the callers hand it
more fuel than the input has characters, so fuel never runs out on inputs
the application sees). -/
def parseVal : Nat → List Char → Option (Json × List Char)
  | 0, _ => none
  | fuel + 1, cs =>
    match skipWs cs with
    | [] => none
    | c :: rest =>
      if c = lbrace then parseObjRest fuel rest .nil true
      else if c = '[' then parseArrRest fuel rest [] true
      else if c = '"' then
        (parseStrBody rest).map (fun r => (Json.str (String.mk r.1), r.2))
      else if c = '-' then
        (parseDigits rest).map (fun r => (Json.num (-(r.1 : Int)), r.2))
      else if c.isDigit then
        (parseDigits (c :: rest)).map (fun r => (Json.num (r.1 : Int), r.2))
      else
        match c :: rest with
        | 't' :: 'r' :: 'u' :: 'e' :: r2 => some (Json.bool true, r2)
        | 'f' :: 'a' :: 'l' :: 's' :: 'e' :: r2 => some (Json.bool false, r2)
        | 'n' :: 'u' :: 'l' :: 'l' :: r2 => some (Json.null, r2)
        | _ => none

/-- After `[` (or after a `,` inside an array): the remaining elements. -/
def parseArrRest : Nat → List Char → List Json → Bool → Option (Json × List Char)
  | 0, _, _, _ => none
  | fuel + 1, cs, revAcc, first =>
    let cs1 := skipWs cs
    match cs1 with
    | ']' :: r2 => if first then some (Json.arr (jarrOfList revAcc.reverse), r2) else none
    | _ =>
      match parseVal fuel cs1 with
      | some (v, r2) =>
        match skipWs r2 with
        | ',' :: r3 => parseArrRest fuel r3 (v :: revAcc) false
        | ']' :: r3 => some (Json.arr (jarrOfList (v :: revAcc).reverse), r3)
        | _ => none
      | none => none

/-- After the opening brace (or after a `,` inside an object): the
remaining members, accumulated with dict assignment (last duplicate key
wins). -/
def parseObjRest : Nat → List Char → JObj → Bool → Option (Json × List Char)
  | 0, _, _, _ => none
  | fuel + 1, cs, acc, first =>
    let cs1 := skipWs cs
    match cs1 with
    | c :: r1 =>
      if c = rbrace then
        if first then some (Json.obj acc, r1) else none
      else if c = '"' then
        match parseStrBody r1 with
        | some (kchars, r2) =>
          match skipWs r2 with
          | ':' :: r3 =>
            match parseVal fuel r3 with
            | some (v, r4) =>
              let acc2 := jobjSet acc (String.mk kchars) v
              match skipWs r4 with
              | ',' :: r5 => parseObjRest fuel r5 acc2 false
              | c2 :: r5 => if c2 = rbrace then some (Json.obj acc2, r5) else none
              | [] => none
            | none => none
          | _ => none
        | none => none
      else none
    | [] => none
end

/-- Python `json.loads` (on the modelled fragment): parse one value and
require only whitespace after it. -/
def loads (s : String) : Option Json :=
  match parseVal (2 * s.data.length + 2) s.data with
  | some (j, rest) => if (skipWs rest).isEmpty then some j else none
  | none => none

/-- The physical line `append_event`/`endorse_event` write for a row:
`json.dumps(canonical, sort_keys=True)` (the trailing newline is the line
separator of the file model). -/
def writeLine (row : Json) : String := dumpsPy row

/-- `Ledger.validate_chain` over the physical lines of the ledger file:
strip each line, skip blanks, parse, then run the per-row checks.  `none`
is an uncaught exception (unparsable line or non-dict row). -/
def validateFileAux (prev : String) : List String → Option (Bool × String)
  | [] => some (true, "ok")
  | l :: rest =>
    let t := pyStrip l
    if t = "" then validateFileAux prev rest
    else
      match loads t with
      | none => none
      | some (.obj kvs) =>
          match rowOk prev kvs with
          | (true, _) => validateFileAux (rowHash kvs) rest
          | res => some res
      | some _ => none

/-- `Ledger.validate_chain` on the ledger file. -/
def validate_chain (lines : List String) : Option (Bool × String) :=
  validateFileAux "GENESIS" lines

/-! ## `app/evidence_crypto.py` -/

/-- The `TSENC1:` marker of encrypted payloads. -/
def encTag : String := "TSENC1:"

/-- Python `str.startswith`, on the character lists. -/
def strStartsWith (s pre : String) : Bool := pre.data.isPrefixOf s.data

/-- Python `str.endswith`. -/
def strEndsWith (s suf : String) : Bool := suf.data.isSuffixOf s.data

def strDrop (s : String) (n : Nat) : String := String.mk (s.data.drop n)

def strDropRight (s : String) (n : Nat) : String :=
  String.mk (s.data.take (s.data.length - n))

/-- Fernet encryption under key `key`, modelled by its contract (an
authenticated injective transformation invertible only under the key). -/
def fernet_encrypt (key pt : String) : String := "FERNET(" ++ key ++ "|" ++ pt ++ ")"

def fernet_decrypt (key token : String) : Option String :=
  let pre := "FERNET(" ++ key ++ "|"
  if strStartsWith token pre && strEndsWith token ")" && pre.length + 1 ≤ token.length then
    some (strDropRight (strDrop token pre.length) 1)
  else none

/-- `EvidenceCipher.encrypt_for_storage`. -/
def encrypt_for_storage (key pt : String) : String := encTag ++ fernet_encrypt key pt

/-- `EvidenceCipher.decrypt_from_storage`: pass unprefixed payloads through
unchanged; decrypt prefixed ones; a MAC failure raises. -/
def decrypt_from_storage (key s : String) : Except String String :=
  if ¬ strStartsWith s encTag then .ok s
  else
    match fernet_decrypt key (strDrop s encTag.length) with
    | some pt => .ok pt
    | none => .error "unable to decrypt evidence payload"

/-! ## `app/storage.py` and `app/main.py` -/

/-- `storage.EvidenceRow`. -/
structure EvidenceRow where
  evidence_id : String
  case_id : String
  description : String
  source_device : Option String
  acquisition_method : String
  file_name : String
  sha256 : String
  created_at : String
  deriving DecidableEq, Repr

/-- The state the service mutates: the parsed ledger file, the evidence
table and the payload files of the evidence store (the `evidence_file`
table and the file system are merged into one evidence-id-keyed map,
faithful to their one-to-one layout). -/
structure ServerState where
  rows : List Json
  evidence : List EvidenceRow
  files : List (String × String)
  deriving Repr

/-- `EvidenceStore.get_evidence` (`KeyError` → `none`; `evidence_id` is the
primary key, so first match is the row). -/
def get_evidence (st : ServerState) (eid : String) : Option EvidenceRow :=
  st.evidence.find? (fun r => r.evidence_id == eid)

/-- `EvidenceStore.get_evidence_file_path` followed by reading the file. -/
def get_file_bytes (st : ServerState) (eid : String) : Option String :=
  (st.files.find? (fun pr => pr.1 == eid)).map (fun pr => pr.2)

/-- An `HTTPException(status_code, detail)`. -/
structure HttpError where
  code : Nat
  detail : String
  deriving DecidableEq, Repr

/-- `models.ActionType`: the closed literal set pydantic admits in
`CustodyEventRequest.action_type`. -/
inductive AType where
  | INTAKE | TRANSFER | ACCESS | ANALYSIS | STORAGE | COURT_SUBMISSION | ENDORSE
  deriving DecidableEq, Repr

def atypeStr : AType → String
  | .INTAKE => "INTAKE"
  | .TRANSFER => "TRANSFER"
  | .ACCESS => "ACCESS"
  | .ANALYSIS => "ANALYSIS"
  | .STORAGE => "STORAGE"
  | .COURT_SUBMISSION => "COURT_SUBMISSION"
  | .ENDORSE => "ENDORSE"

/-- `models.EvidenceIntakeRequest`; `file_bytes` is the base64-decoded
payload (`base64.b64decode(req.file_bytes_b64)`). -/
structure EvidenceIntakeRequest where
  case_id : String
  description : String
  source_device : Option String
  acquisition_method : String
  file_name : String
  file_bytes : String
  deriving DecidableEq, Repr

structure EvidenceResponse where
  evidence_id : String
  case_id : String
  description : String
  file_name : String
  sha256 : String
  created_at : String
  deriving DecidableEq, Repr

/-- `models.CustodyEventRequest`. -/
structure CustodyEventRequest where
  evidence_id : String
  action_type : AType
  details : Json
  presented_sha256 : Option String
  endorse : Bool
  deriving DecidableEq, Repr

/-- `models.CustodyEventResponse` (without the sorted `endorser_org_ids`
display list, which no claim concerns). -/
structure CustodyEventResponse where
  tx_id : String
  evidence_id : String
  action_type : String
  required_endorser_orgs : Int
  unique_endorser_orgs : Nat
  actor_user_id : String
  actor_role : String
  actor_org_id : String
  timestamp : String
  presented_sha256 : Option String
  expected_sha256 : String
  integrity_ok : Bool
  endorsement_status : String
  signer_pubkey_b64 : String
  signature_b64 : String
  record_hash : String
  prev_hash : String
  deriving DecidableEq, Repr

structure VerifyResponse where
  evidence_id : String
  expected_sha256 : String
  actual_sha256 : String
  integrity_ok : Bool
  deriving DecidableEq, Repr

structure EndorseRequest where
  evidence_id : String
  tx_id : String
  deriving DecidableEq, Repr

structure EndorseResponse where
  tx_id : String
  endorsed_tx_id : String
  evidence_id : String
  endorser_user_id : String
  endorser_role : String
  endorser_org_id : String
  timestamp : String
  deriving DecidableEq, Repr

/-- `main.intake` (POST /evidence/intake).  `evidence_uuid`, `tx_uuid` and
`timestamp` are the environment inputs it draws. -/
def intake (st : ServerState) (p : Principal) (req : EvidenceIntakeRequest)
    (evidence_uuid tx_uuid timestamp : String) :
    Except HttpError (EvidenceResponse × ServerState) :=
  match require_action p .REGISTER_EVIDENCE with
  | .error e => .error ⟨403, e⟩
  | .ok _ =>
    let evidence_id := evidence_uuid
    let raw := req.file_bytes
    let sha256 := sha256_bytes raw
    let created_at := timestamp
    let row : EvidenceRow :=
      { evidence_id := evidence_id, case_id := req.case_id, description := req.description,
        source_device := req.source_device, acquisition_method := req.acquisition_method,
        file_name := req.file_name, sha256 := sha256, created_at := created_at }
    let st1 := { st with evidence := st.evidence ++ [row],
                         files := st.files ++ [(evidence_id, raw)] }
    let ap := append_event st1.rows
      { evidence_id := evidence_id, action_type := "INTAKE", principal := p,
        expected_sha256 := sha256, presented_sha256 := some sha256, integrity_ok := true,
        details := .obj (jobjOfList
          [("case_id", .str req.case_id), ("file_name", .str req.file_name)]),
        endorse := true, tx_id := tx_uuid, timestamp := timestamp }
    .ok ({ evidence_id := evidence_id, case_id := req.case_id,
           description := req.description, file_name := req.file_name,
           sha256 := sha256, created_at := created_at },
         { st1 with rows := ap.2 })

/-- `main.record_event` (POST /evidence/event). -/
def record_event (st : ServerState) (p : Principal) (req : CustodyEventRequest)
    (tx_uuid timestamp : String) :
    Except HttpError (CustodyEventResponse × ServerState) :=
  match require_action p .RECORD_EVENT with
  | .error e => .error ⟨403, e⟩
  | .ok _ =>
    match get_evidence st req.evidence_id with
    | none => .error ⟨404, "evidence not found"⟩
    | some evidence =>
      let expected := evidence.sha256
      let integrity_ok :=
        match req.presented_sha256 with
        | none => true
        | some ps => ps == expected
      let ap := append_event st.rows
        { evidence_id := req.evidence_id, action_type := atypeStr req.action_type,
          principal := p, expected_sha256 := expected,
          presented_sha256 := req.presented_sha256, integrity_ok := integrity_ok,
          details := req.details, endorse := req.endorse,
          tx_id := tx_uuid, timestamp := timestamp }
      let ev := ap.1
      let st2 := { st with rows := ap.2 }
      let cs := compute_endorsement_status st2.rows ev
      .ok ({ tx_id := ev.tx_id, evidence_id := ev.evidence_id,
             action_type := ev.action_type,
             required_endorser_orgs := ev.required_endorser_orgs,
             unique_endorser_orgs := cs.2.1,
             actor_user_id := ev.actor_user_id, actor_role := ev.actor_role,
             actor_org_id := ev.actor_org_id, timestamp := ev.timestamp,
             presented_sha256 := ev.presented_sha256,
             expected_sha256 := ev.expected_sha256, integrity_ok := ev.integrity_ok,
             endorsement_status := cs.1,
             signer_pubkey_b64 := ev.signer_pubkey_b64,
             signature_b64 := ev.signature_b64, record_hash := ev.record_hash,
             prev_hash := ev.prev_hash },
           st2)

/-- `main.verify` (POST /evidence/-evidence_id-/verify).  Note: the stored
bytes are hashed exactly as they sit on disk (`sha256_file(file_path)`);
`decrypt_from_storage` is not consulted. -/
def verify (st : ServerState) (p : Principal) (evidence_id : String)
    (tx_uuid timestamp : String) :
    Except HttpError (VerifyResponse × ServerState) :=
  match require_action p .VERIFY_INTEGRITY with
  | .error e => .error ⟨403, e⟩
  | .ok _ =>
    match get_evidence st evidence_id, get_file_bytes st evidence_id with
    | some evidence, some bytes =>
      let actual := sha256_bytes bytes
      let ok := actual == evidence.sha256
      let ap := append_event st.rows
        { evidence_id := evidence_id, action_type := "ACCESS", principal := p,
          expected_sha256 := evidence.sha256, presented_sha256 := some actual,
          integrity_ok := ok,
          details := .obj (jobjOfList [("purpose", .str "integrity_verification")]),
          endorse := true, tx_id := tx_uuid, timestamp := timestamp }
      .ok ({ evidence_id := evidence_id, expected_sha256 := evidence.sha256,
             actual_sha256 := actual, integrity_ok := ok },
           { st with rows := ap.2 })
    | _, _ => .error ⟨404, "evidence not found"⟩

/-- `main.endorse` (POST /evidence/endorse).  Only the evidence id is
looked up; the target `tx_id` is never checked against the ledger. -/
def endorse (st : ServerState) (p : Principal) (req : EndorseRequest)
    (uuid timestamp : String) :
    Except HttpError (EndorseResponse × ServerState) :=
  match require_action p .RECORD_EVENT with
  | .error e => .error ⟨403, e⟩
  | .ok _ =>
    match get_evidence st req.evidence_id with
    | none => .error ⟨404, "evidence not found"⟩
    | some _ =>
      match endorse_event st.rows req.tx_id req.evidence_id p uuid timestamp with
      | .error e =>
          if e == "duplicate endorsement from org" then
            .error ⟨409, "Duplicate endorsement from the same organization"⟩
          else .error ⟨500, e⟩
      | .ok r =>
          .ok ({ tx_id := r.1.tx_id, endorsed_tx_id := req.tx_id,
                 evidence_id := req.evidence_id, endorser_user_id := r.1.actor_user_id,
                 endorser_role := r.1.actor_role, endorser_org_id := r.1.actor_org_id,
                 timestamp := r.1.timestamp },
               { st with rows := r.2 })

/-- The state a handler leaves behind: the new state on success, the old
one when the raised `HTTPException` aborts the request. -/
def stateAfter {α : Type} (res : Except HttpError (α × ServerState))
    (st : ServerState) : ServerState :=
  match res with
  | .ok r => r.2
  | .error _ => st

/-- The status code of a failed handler call. -/
def errCode {α : Type} : Except HttpError α → Option Nat
  | .error e => some e.code
  | .ok _ => none

/-- The response of a successful handler call. -/
def okResult {α : Type} : Except HttpError (α × ServerState) → Option α
  | .ok r => some r.1
  | .error _ => none

/-! ## Specification-side definitions (written from the claims' words) -/

/-- The §4.6 permission matrix exactly as the specification lists it. -/
def matrixSpec (r : Role) (a : Action) : Prop :=
  (r = .FIELD_OFFICER ∧ (a = .REGISTER_EVIDENCE ∨ a = .RECORD_EVENT ∨
    a = .VERIFY_INTEGRITY ∨ a = .VIEW_EVIDENCE)) ∨
  (r = .FORENSIC_ANALYST ∧ (a = .RECORD_EVENT ∨ a = .VERIFY_INTEGRITY ∨
    a = .VIEW_EVIDENCE)) ∨
  (r = .SUPERVISOR ∧ (a = .RECORD_EVENT ∨ a = .VERIFY_INTEGRITY ∨
    a = .VIEW_EVIDENCE ∨ a = .GENERATE_REPORT)) ∨
  ((r = .PROSECUTOR ∨ r = .JUDGE ∨ r = .SYSTEM_AUDITOR) ∧
    (a = .VIEW_EVIDENCE ∨ a = .GENERATE_REPORT))

instance (r : Role) (a : Action) : Decidable (matrixSpec r a) := by
  unfold matrixSpec; infer_instance

/-- The integrity flag in the words of the specification:
`presented_sha256 == expected_sha256`, true when `presented` is null. -/
def integritySpec (presented : Option String) (expected : String) : Bool :=
  match presented with
  | none => true
  | some ps => ps == expected

/-- The org of one write-time endorsement entry, counted only when truthy
(the filter `compute_endorsement_status` applies). -/
def entryOrg (e : Json) : Option Json :=
  match getKey e "org_id" with
  | some o => if truthy o then some o else none
  | none => none

/-- Specification-side endorser count (amended): the number of distinct
truthy org ids across the event's write-time endorsements together with
the actor orgs of ENDORSE lines whose truthy `details.endorsed_tx_id`
equals the event's `tx_id`. -/
def specEndorserOrgCount (rows : List Json) (ev : LedgerEvent) : Nat :=
  (((jarrToList ev.endorsements).filterMap entryOrg) ++
    rows.filterMap (endorseOrgOf ev.tx_id)).toFinset.card

/-- The count exactly as claim C3 words it (no truthiness filtering and no
quorum floor): distinct `org_id` values across `e.endorsements` plus the
`actor_org_id` of every ENDORSE line whose `details.endorsed_tx_id` equals
`e.tx_id`. -/
def claimDistinctOrgs (rows : List Json) (ev : LedgerEvent) : Nat :=
  (((jarrToList ev.endorsements).filterMap (fun e => getKey e "org_id")) ++
    rows.filterMap (fun row =>
      if getKey row "action_type" = some (.str "ENDORSE") ∧
         getKey ((getKey row "details").getD .null) "endorsed_tx_id" = some (.str ev.tx_id)
      then getKey row "actor_org_id" else none)).toFinset.card

/-- A ledger row that is an ENDORSE line for target `tx` by org `org`. -/
def isEndorseLineFor (row : Json) (tx org : String) : Bool :=
  getKey row "action_type" == some (.str "ENDORSE") &&
  getKey ((getKey row "details").getD .null) "endorsed_tx_id" == some (.str tx) &&
  getKey row "actor_org_id" == some (.str org)

/-- Claim C5's precondition exactly as worded: some prior ENDORSE line with
the same `details.endorsed_tx_id` and the same `actor_org_id` exists. -/
def claimPriorLine (rows : List Json) (tx org : String) : Bool :=
  rows.any (fun row => isEndorseLineFor row tx org)

/-- The amended precondition: the same, restricted to non-empty target and
org (the truthiness filters of `_endorsements_by_tx`). -/
def priorEndorseAm (rows : List Json) (tx org : String) : Bool :=
  tx != "" && org != "" && claimPriorLine rows tx org

/-- How many ENDORSE lines for target `tx` by org `org` a ledger holds. -/
def endorseLineCount (rows : List Json) (tx org : String) : Nat :=
  (rows.filter (fun row => isEndorseLineFor row tx org)).length

/-- Operations that do not route an ENDORSE-typed record through
`append_event` (which performs no duplicate check). -/
def opKeepsEndorseExclusive : LedgerOp → Bool
  | .append a => a.action_type != "ENDORSE"
  | .endorse _ _ _ _ _ => true

/-! ## Proof-side helper functions -/

/-- The `prev` value `validate_chain` carries after a list of passing
parsed rows. -/
def lastAux (prev : String) : List Json → String
  | [] => prev
  | .obj kvs :: rest => lastAux (rowHash kvs) rest
  | _ :: rest => lastAux prev rest

/-- The `prev` value the file-level walk carries after a list of passing
lines. -/
def fileLast (prev : String) : List String → String
  | [] => prev
  | l :: rest =>
      if pyStrip l = "" then fileLast prev rest
      else
        match loads (pyStrip l) with
        | some (.obj kvs) => fileLast (rowHash kvs) rest
        | _ => fileLast prev rest

/-- Replace the byte at index `i` (a single-byte flip of a line). -/
def setCharAt (s : String) (i : Nat) (c : Char) : String :=
  String.mk (s.data.set i c)

/-! ## Concrete fixtures for counterexamples and witnesses -/

def officer : Principal := ⟨"officer1", .FIELD_OFFICER, "KPS"⟩
def analyst : Principal := ⟨"analyst1", .FORENSIC_ANALYST, "FORENSIC_LAB"⟩
def prosecutorP : Principal := ⟨"prosecutor1", .PROSECUTOR, "ODPP"⟩
def blankOrgAnalyst : Principal := ⟨"analyst2", .FORENSIC_ANALYST, ""⟩
def kpsSupervisor : Principal := ⟨"supervisor1", .SUPERVISOR, "KPS"⟩

/-- A minimal ledger row sealed by the application's signing/hashing steps:
the smallest record `validate_chain` accepts. -/
def mrow : Json := .obj (sealRow "u1" (jobjOfList [("prev_hash", .str "GENESIS")])).1

def mline : String := writeLine mrow

/-- `mline` with the separator space at byte 24 flipped to a tab. -/
def mlineWs : String := setCharAt mline 24 '\t'

/-- `mline` with a value byte (inside the `prev_hash` value) flipped. -/
def mlineVal : String := setCharAt mline 16 'X'

def mrowParsed : JObj :=
  match loads (pyStrip mline) with
  | some (.obj kvs) => kvs
  | _ => .nil

def mrowValParsed : JObj :=
  match loads (pyStrip mlineVal) with
  | some (.obj kvs) => kvs
  | _ => .nil

/-- Event with a zero quorum target (claim C3 predicts FINAL at 0 ≥ 0; the
code floors the quorum at 1). -/
def evZeroQuorum : LedgerEvent :=
  { tx_id := "T1", evidence_id := "E1", action_type := "TRANSFER",
    required_endorser_orgs := 0, actor_user_id := "officer1",
    actor_role := "FIELD_OFFICER", actor_org_id := "KPS", timestamp := "t",
    presented_sha256 := none, expected_sha256 := "", integrity_ok := true,
    prev_hash := "GENESIS", record_hash := "h",
    endorsement_status := "PENDING_ENDORSEMENT", endorsements := .nil,
    details := .obj .nil, signer_pubkey_b64 := "pk", signature_b64 := "sg" }

/-- Event carrying one write-time endorsement with an empty org id (claim
C3 counts it; the code's truthiness filter does not). -/
def evBlankOrg : LedgerEvent :=
  { evZeroQuorum with
    required_endorser_orgs := 1,
    endorsements := .cons (.obj (jobjOfList
      [("org_id", .str ""), ("user_id", .str "u")])) .nil }

/-- An ENDORSE-typed record routed through `append_event` (reachable from
the API: `record_event` admits `action_type = "ENDORSE"`). -/
def endorseViaAppend (uid ts : String) : AppendArgs :=
  { evidence_id := "E1", action_type := "ENDORSE", principal := officer,
    expected_sha256 := "", presented_sha256 := none, integrity_ok := true,
    details := .obj (jobjOfList [("endorsed_tx_id", .str "T9")]),
    endorse := false, tx_id := uid, timestamp := ts }

def dupEndorseRows : List Json :=
  runOps [.append (endorseViaAppend "TA" "t1"), .append (endorseViaAppend "TB" "t2")]

def blankRows1 : List Json := stepOp [] (.endorse "T9" "E1" blankOrgAnalyst "U1" "t1")
def blankRows2 : List Json :=
  stepOp blankRows1 (.endorse "T9" "E1" ⟨"analyst3", .FORENSIC_ANALYST, ""⟩ "U2" "t2")

def evidenceE1 : EvidenceRow :=
  { evidence_id := "E1", case_id := "C1", description := "d",
    source_device := none, acquisition_method := "imaging",
    file_name := "f.bin", sha256 := sha256_bytes "HELLO", created_at := "t0" }

/-- Evidence store holding one plaintext payload. -/
def stPlain : ServerState := { rows := [], evidence := [evidenceE1], files := [("E1", "HELLO")] }

/-- The same evidence, stored encrypted at rest (`TSENC1:` prefix). -/
def stEnc : ServerState :=
  { rows := [], evidence := [evidenceE1], files := [("E1", encrypt_for_storage "K" "HELLO")] }

/-- A TRANSFER appended with `endorse=true` by the KPS officer. -/
def transferArgs : AppendArgs :=
  { evidence_id := "E1", action_type := "TRANSFER", principal := officer,
    expected_sha256 := "h", presented_sha256 := some "h", integrity_ok := true,
    details := .obj (jobjOfList [("from", .str "KPS"), ("to", .str "FORENSIC_LAB")]),
    endorse := true, tx_id := "TXT", timestamp := "t1" }

/-- Structural induction for object spines (the mutual family blocks the
default eliminator). -/
theorem jobjInd {motive : JObj → Prop} (hnil : motive .nil)
    (hcons : ∀ k v tl, motive tl → motive (.cons k v tl)) : ∀ kvs, motive kvs
  | .nil => hnil
  | .cons k v tl => hcons k v tl (jobjInd hnil hcons tl)

/-- Structural induction for array spines. -/
theorem jarrInd {motive : JArr → Prop} (hnil : motive .nil)
    (hcons : ∀ x tl, motive tl → motive (.cons x tl)) : ∀ xs, motive xs
  | .nil => hnil
  | .cons x tl => hcons x tl (jarrInd hnil hcons tl)

theorem sha256_bytes_inj {a b : String} (h : sha256_bytes a = sha256_bytes b) : a = b := by
  have hd : ("H(" ++ a ++ ")").data = ("H(" ++ b ++ ")").data := by
    simpa [sha256_bytes] using congrArg String.data h
  exact String.ext (List.append_cancel_left (List.append_cancel_right hd))

theorem jeqStr_iff {o : Option Json} {s : String} : jeqStr o s = true ↔ o = some (.str s) := by
  cases o with
  | none => simp [jeqStr]
  | some j => cases j <;> simp [jeqStr]

theorem jobjGet_set_same (kvs : JObj) (k : String) (v : Json) :
    jobjGet (jobjSet kvs k v) k = some v := by
  induction kvs using jobjInd with
  | hnil => simp [jobjSet, jobjGet]
  | hcons k2 v2 tl ih =>
      by_cases h : k2 = k <;> simp [jobjSet, jobjGet, h, ih]

theorem jobjGet_set_ne (kvs : JObj) {k k2 : String} (v : Json) (h : k2 ≠ k) :
    jobjGet (jobjSet kvs k v) k2 = jobjGet kvs k2 := by
  induction kvs using jobjInd with
  | hnil => simp [jobjSet, jobjGet, h, Ne.symm h]
  | hcons k3 v3 tl ih =>
      by_cases h3 : k3 = k
      · subst h3; simp [jobjSet, jobjGet, h, Ne.symm h]
      · simp [jobjSet, jobjGet, h3]
        by_cases h4 : k3 = k2 <;> simp [h4, ih]

theorem jobjGet_pop_ne (kvs : JObj) {k k2 : String} (h : k2 ≠ k) :
    jobjGet (jobjPop kvs k) k2 = jobjGet kvs k2 := by
  induction kvs using jobjInd with
  | hnil => simp [jobjPop]
  | hcons k3 v3 tl ih =>
      by_cases h3 : k3 = k
      · subst h3; simp [jobjPop, jobjGet, Ne.symm h, ih]
      · simp [jobjPop, jobjGet, h3]
        by_cases h4 : k3 = k2 <;> simp [h4, ih]

theorem jobjPop_absent {kvs : JObj} {k : String} (h : jobjGet kvs k = none) :
    jobjPop kvs k = kvs := by
  induction kvs using jobjInd with
  | hnil => simp [jobjPop]
  | hcons k2 v2 tl ih =>
      simp only [jobjGet] at h
      by_cases h2 : k2 = k
      · simp [h2] at h
      · simp [jobjPop, h2, ih (by simpa [h2] using h)]

theorem jobjPop_set_absent {kvs : JObj} {k : String} (v : Json)
    (h : jobjGet kvs k = none) : jobjPop (jobjSet kvs k v) k = kvs := by
  induction kvs using jobjInd with
  | hnil => simp [jobjSet, jobjPop]
  | hcons k2 v2 tl ih =>
      simp only [jobjGet] at h
      by_cases h2 : k2 = k
      · simp [h2] at h
      · simp [jobjSet, jobjPop, h2, ih (by simpa [h2] using h)]

theorem jobjPop_set_ne (kvs : JObj) {k k2 : String} (v : Json) (h : k2 ≠ k) :
    jobjPop (jobjSet kvs k v) k2 = jobjSet (jobjPop kvs k2) k v := by
  induction kvs using jobjInd with
  | hnil => simp [jobjSet, jobjPop, Ne.symm h]
  | hcons k3 v3 tl ih =>
      by_cases h3 : k3 = k
      · subst h3
        simp [jobjSet, jobjPop, Ne.symm h]
      · by_cases h4 : k3 = k2
        · subst h4; simp [jobjSet, jobjPop, h3, ih]
        · simp [jobjSet, jobjPop, h3, h4, ih]

/-- The sealed row minus `record_hash` is the signed canonical record. -/
theorem sealRow_pop_rh (user : String) (c0 : JObj)
    (h1 : jobjGet c0 "record_hash" = none) :
    jobjPop (sealRow user c0).1 "record_hash" =
      jobjSet (jobjSet c0 "signer_pubkey_b64" (.str (sealRow user c0).2.1))
        "signature_b64" (.str (sealRow user c0).2.2.1) := by
  simp only [sealRow]
  apply jobjPop_set_absent
  rw [jobjGet_set_ne _ _ (by decide), jobjGet_set_ne _ _ (by decide)]
  exact h1

theorem sealRow_rowHash (user : String) (c0 : JObj)
    (h1 : jobjGet c0 "record_hash" = none) :
    rowHash (sealRow user c0).1 = (sealRow user c0).2.2.2 := by
  rw [rowHash, sealRow_pop_rh user c0 h1]
  simp only [sealRow]

theorem sealRow_get_rh (user : String) (c0 : JObj) :
    jobjGet (sealRow user c0).1 "record_hash" = some (.str (sealRow user c0).2.2.2) := by
  simp only [sealRow]
  exact jobjGet_set_same _ _ _

theorem sealRow_get_other (user : String) (c0 : JObj) {k : String}
    (hk1 : k ≠ "record_hash") (hk2 : k ≠ "signer_pubkey_b64") (hk3 : k ≠ "signature_b64") :
    jobjGet (sealRow user c0).1 k = jobjGet c0 k := by
  simp only [sealRow]
  rw [jobjGet_set_ne _ _ hk1, jobjGet_set_ne _ _ hk3, jobjGet_set_ne _ _ hk2]

theorem sealRow_get_pub (user : String) (c0 : JObj) :
    jobjGet (sealRow user c0).1 "signer_pubkey_b64" = some (.str (sealRow user c0).2.1) := by
  simp only [sealRow]
  rw [jobjGet_set_ne _ _ (by decide), jobjGet_set_ne _ _ (by decide)]
  exact jobjGet_set_same _ _ _

theorem sealRow_get_sig (user : String) (c0 : JObj) :
    jobjGet (sealRow user c0).1 "signature_b64" = some (.str (sealRow user c0).2.2.1) := by
  simp only [sealRow]
  rw [jobjGet_set_ne _ _ (by decide)]
  exact jobjGet_set_same _ _ _

/-- Both the signature `sealRow` attaches and the payload `validate_chain`
recomputes are over the canonical record without the three excluded keys. -/
theorem sealRow_payload (user : String) (c0 : JObj)
    (h1 : jobjGet c0 "record_hash" = none)
    (h2 : jobjGet c0 "signer_pubkey_b64" = none)
    (h3 : jobjGet c0 "signature_b64" = none) :
    signing_payload (sealRow user c0).1 = dumpsMin (.obj c0) := by
  rw [signing_payload, sealRow_pop_rh user c0 h1]
  rw [jobjPop_set_ne _ _ (by decide), jobjPop_set_absent _ h2, jobjPop_set_absent _ h3]

theorem sealRow_sig_eq (user : String) (c0 : JObj)
    (h1 : jobjGet c0 "record_hash" = none)
    (h2 : jobjGet c0 "signer_pubkey_b64" = none)
    (h3 : jobjGet c0 "signature_b64" = none) :
    (sealRow user c0).2.2.1 = mkSig (sealRow user c0).2.1 (dumpsMin (.obj c0)) := by
  simp only [sealRow, sign_b64]
  congr 1
  rw [signing_payload, jobjPop_absent (k := "record_hash"), jobjPop_set_absent _ h2,
    jobjPop_absent h3]
  rw [jobjGet_set_ne _ _ (by decide)]
  exact h1

theorem pubkey_b64_ne (u : String) : pubkey_b64 u ≠ "" := by
  intro h
  have h2 := congrArg String.length h
  simp [pubkey_b64, String.length_append] at h2
  exact absurd h2.1.1 (by decide)

theorem mkSig_ne (p q : String) : mkSig p q ≠ "" := by
  intro h
  have h2 := congrArg String.length h
  simp [mkSig, String.length_append] at h2
  exact absurd h2.1.1.1.1 (by decide)

theorem jeqStr_self (s : String) : jeqStr (some (.str s)) s = true := by
  simp [jeqStr]

/-- A row finished by `sealRow` passes every check of the `validate_chain`
loop relative to the `prev_hash` it embeds. -/
theorem sealRow_rowOk (user : String) (c0 : JObj) (prevH : String)
    (h1 : jobjGet c0 "record_hash" = none)
    (h2 : jobjGet c0 "signer_pubkey_b64" = none)
    (h3 : jobjGet c0 "signature_b64" = none)
    (hp : jobjGet c0 "prev_hash" = some (.str prevH)) :
    rowOk prevH (sealRow user c0).1 = (true, "ok") := by
  have hrh := sealRow_rowHash user c0 h1
  have hget := sealRow_get_rh user c0
  have hprev : jobjGet (sealRow user c0).1 "prev_hash" = some (.str prevH) := by
    rw [sealRow_get_other user c0 (by decide) (by decide) (by decide)]; exact hp
  have hpub := sealRow_get_pub user c0
  have hsig := sealRow_get_sig user c0
  have hpay := sealRow_payload user c0 h1 h2 h3
  have hsigeq := sealRow_sig_eq user c0 h1 h2 h3
  have hpubval : (sealRow user c0).2.1 = pubkey_b64 user := rfl
  have t1 : truthyOpt (jobjGet (sealRow user c0).1 "signer_pubkey_b64") = true := by
    rw [hpub]
    simp only [truthyOpt, truthy, bne_iff_ne, ne_eq, decide_eq_true_eq, hpubval]
    exact pubkey_b64_ne user
  have t2 : truthyOpt (jobjGet (sealRow user c0).1 "signature_b64") = true := by
    rw [hsig]
    simp only [truthyOpt, truthy, bne_iff_ne, ne_eq, decide_eq_true_eq, hsigeq]
    exact mkSig_ne _ _
  have t3 : verify_signature (jobjGet (sealRow user c0).1 "signer_pubkey_b64")
      (jobjGet (sealRow user c0).1 "signature_b64")
      (signing_payload (sealRow user c0).1) = true := by
    rw [hpub, hsig, hpay, verify_signature, hsigeq]
    simp
  rw [rowOk]
  rw [hget, hrh, hprev]
  rw [jeqStr_self, jeqStr_self]
  simp [t1, t2, t3]

theorem appendCanonical_get_rh (rows : List Json) (a : AppendArgs) :
    jobjGet (appendCanonical rows a) "record_hash" = none := by
  simp [appendCanonical, jobjOfList, jobjGet]

theorem appendCanonical_get_pub (rows : List Json) (a : AppendArgs) :
    jobjGet (appendCanonical rows a) "signer_pubkey_b64" = none := by
  simp [appendCanonical, jobjOfList, jobjGet]

theorem appendCanonical_get_sig (rows : List Json) (a : AppendArgs) :
    jobjGet (appendCanonical rows a) "signature_b64" = none := by
  simp [appendCanonical, jobjOfList, jobjGet]

theorem appendCanonical_get_prev (rows : List Json) (a : AppendArgs) :
    jobjGet (appendCanonical rows a) "prev_hash" = some (.str (last_hash rows)) := by
  simp [appendCanonical, jobjOfList, jobjGet]

theorem appendCanonical_get_action (rows : List Json) (a : AppendArgs) :
    jobjGet (appendCanonical rows a) "action_type" = some (.str a.action_type) := by
  simp [appendCanonical, jobjOfList, jobjGet]

theorem appendCanonical_get_required (rows : List Json) (a : AppendArgs) :
    jobjGet (appendCanonical rows a) "required_endorser_orgs" =
      some (.num (required_endorser_org_count a.action_type)) := by
  simp [appendCanonical, jobjOfList, jobjGet]

theorem appendCanonical_get_integrity (rows : List Json) (a : AppendArgs) :
    jobjGet (appendCanonical rows a) "integrity_ok" = some (.bool a.integrity_ok) := by
  simp [appendCanonical, jobjOfList, jobjGet]

theorem appendCanonical_get_details (rows : List Json) (a : AppendArgs) :
    jobjGet (appendCanonical rows a) "details" = some a.details := by
  simp [appendCanonical, jobjOfList, jobjGet]

theorem appendCanonical_get_org (rows : List Json) (a : AppendArgs) :
    jobjGet (appendCanonical rows a) "actor_org_id" = some (.str a.principal.org_id) := by
  simp [appendCanonical, jobjOfList, jobjGet]

theorem endorseCanonical_get_rh (rows : List Json) (tx eid : String) (p : Principal)
    (u t : String) : jobjGet (endorseCanonical rows tx eid p u t) "record_hash" = none := by
  simp [endorseCanonical, jobjOfList, jobjGet]

theorem endorseCanonical_get_pub (rows : List Json) (tx eid : String) (p : Principal)
    (u t : String) :
    jobjGet (endorseCanonical rows tx eid p u t) "signer_pubkey_b64" = none := by
  simp [endorseCanonical, jobjOfList, jobjGet]

theorem endorseCanonical_get_sig (rows : List Json) (tx eid : String) (p : Principal)
    (u t : String) :
    jobjGet (endorseCanonical rows tx eid p u t) "signature_b64" = none := by
  simp [endorseCanonical, jobjOfList, jobjGet]

theorem endorseCanonical_get_prev (rows : List Json) (tx eid : String) (p : Principal)
    (u t : String) :
    jobjGet (endorseCanonical rows tx eid p u t) "prev_hash" =
      some (.str (last_hash rows)) := by
  simp [endorseCanonical, jobjOfList, jobjGet]

theorem endorseCanonical_get_action (rows : List Json) (tx eid : String) (p : Principal)
    (u t : String) :
    jobjGet (endorseCanonical rows tx eid p u t) "action_type" = some (.str "ENDORSE") := by
  simp [endorseCanonical, jobjOfList, jobjGet]

theorem endorseCanonical_get_details (rows : List Json) (tx eid : String) (p : Principal)
    (u t : String) :
    jobjGet (endorseCanonical rows tx eid p u t) "details" =
      some (.obj (jobjOfList [("endorsed_tx_id", .str tx)])) := by
  simp [endorseCanonical, jobjOfList, jobjGet]

theorem endorseCanonical_get_org (rows : List Json) (tx eid : String) (p : Principal)
    (u t : String) :
    jobjGet (endorseCanonical rows tx eid p u t) "actor_org_id" =
      some (.str p.org_id) := by
  simp [endorseCanonical, jobjOfList, jobjGet]

theorem rowOk_true_elim {prev : String} {kvs : JObj} {s : String}
    (h : rowOk prev kvs = (true, s)) :
    jobjGet kvs "record_hash" = some (.str (rowHash kvs)) ∧
      jobjGet kvs "prev_hash" = some (.str prev) := by
  rw [rowOk] at h
  cases hb1 : jeqStr (jobjGet kvs "record_hash") (rowHash kvs) with
  | false => rw [hb1] at h; simp at h
  | true =>
    cases hb2 : jeqStr (jobjGet kvs "prev_hash") prev with
    | false => rw [hb1, hb2] at h; simp at h
    | true => exact ⟨jeqStr_iff.mp hb1, jeqStr_iff.mp hb2⟩

theorem validateAux_snoc {rows : List Json} : ∀ {prev : String},
    validateAux prev rows = some (true, "ok") → ∀ r : Json,
    validateAux prev (rows ++ [r]) = validateAux (lastAux prev rows) [r] := by
  induction rows with
  | nil => intro prev _ r; simp [lastAux]
  | cons row rest ih =>
    intro prev h r
    cases row with
    | obj kvs =>
      simp only [validateAux] at h ⊢
      rcases hok : rowOk prev kvs with ⟨b, s⟩
      rw [hok] at h
      cases b with
      | false => simp at h
      | true =>
        simp only at h
        simp only [lastAux]
        exact ih h r
    | null => simp [validateAux] at h
    | bool b => simp [validateAux] at h
    | num n => simp [validateAux] at h
    | str s2 => simp [validateAux] at h
    | arr xs => simp [validateAux] at h

theorem lastAux_eq_last_hash_go {rows : List Json} : ∀ {prev : String},
    validateAux prev rows = some (true, "ok") →
    lastAux prev rows = last_hash_go prev rows := by
  induction rows with
  | nil => intro prev _; rfl
  | cons row rest ih =>
    intro prev h
    cases row with
    | obj kvs =>
      simp only [validateAux] at h
      rcases hok : rowOk prev kvs with ⟨b, s⟩
      rw [hok] at h
      cases b with
      | false => simp at h
      | true =>
        simp only at h
        have hst := (rowOk_true_elim hok).1
        rw [lastAux, last_hash_go]
        simp only [getKey, hst]
        exact ih h
    | null => simp [validateAux] at h
    | bool b => simp [validateAux] at h
    | num n => simp [validateAux] at h
    | str s2 => simp [validateAux] at h
    | arr xs => simp [validateAux] at h

theorem validate_chainLinked {rows : List Json} : ∀ {prev : String},
    validateAux prev rows = some (true, "ok") → chainLinked prev rows = true := by
  induction rows with
  | nil => intro prev _; rfl
  | cons row rest ih =>
    intro prev h
    cases row with
    | obj kvs =>
      simp only [validateAux] at h
      rcases hok : rowOk prev kvs with ⟨b, s⟩
      rw [hok] at h
      cases b with
      | false => simp at h
      | true =>
        simp only at h
        obtain ⟨hst, hpr⟩ := rowOk_true_elim hok
        rw [chainLinked]
        simp only [getKey, hst, hpr, jeqStr_self, Bool.true_and]
        exact ih h
    | null => simp [validateAux] at h
    | bool b => simp [validateAux] at h
    | num n => simp [validateAux] at h
    | str s2 => simp [validateAux] at h
    | arr xs => simp [validateAux] at h

theorem append_event_snd (rows : List Json) (a : AppendArgs) :
    (append_event rows a).2 =
      rows ++ [.obj (sealRow a.principal.user_id (appendCanonical rows a)).1] := rfl

theorem endorse_event_ok {rows : List Json} {tx eid : String} {p : Principal}
    {u t : String} {r : LedgerEvent × List Json}
    (h : endorse_event rows tx eid p u t = .ok r) :
    r.2 = rows ++ [.obj (sealRow p.user_id (endorseCanonical rows tx eid p u t)).1] ∧
      Json.str p.org_id ∉ endorser_orgs_for_tx rows tx := by
  by_cases hmem : Json.str p.org_id ∈ endorser_orgs_for_tx rows tx
  · rw [endorse_event, if_pos hmem] at h
    exact absurd h (by simp)
  · rw [endorse_event, if_neg hmem] at h
    injection h with h2
    subst h2
    exact ⟨rfl, hmem⟩

theorem stepOp_preserves {rows : List Json}
    (h : validateAux "GENESIS" rows = some (true, "ok")) (op : LedgerOp) :
    validateAux "GENESIS" (stepOp rows op) = some (true, "ok") := by
  have hlast : lastAux "GENESIS" rows = last_hash rows :=
    lastAux_eq_last_hash_go h
  cases op with
  | append a =>
    rw [stepOp, append_event_snd, validateAux_snoc h]
    rw [hlast]
    simp only [validateAux]
    rw [sealRow_rowOk a.principal.user_id (appendCanonical rows a) (last_hash rows)
      (appendCanonical_get_rh rows a) (appendCanonical_get_pub rows a)
      (appendCanonical_get_sig rows a) (appendCanonical_get_prev rows a)]
  | endorse tx eid p u t =>
    rw [stepOp]
    cases hE : endorse_event rows tx eid p u t with
    | error e => exact h
    | ok r =>
      change validateAux "GENESIS" r.2 = some (true, "ok")
      rw [(endorse_event_ok hE).1, validateAux_snoc h, hlast]
      simp only [validateAux]
      rw [sealRow_rowOk p.user_id (endorseCanonical rows tx eid p u t) (last_hash rows)
        (endorseCanonical_get_rh rows tx eid p u t)
        (endorseCanonical_get_pub rows tx eid p u t)
        (endorseCanonical_get_sig rows tx eid p u t)
        (endorseCanonical_get_prev rows tx eid p u t)]

theorem runOps_valid (ops : List LedgerOp) :
    validateAux "GENESIS" (runOps ops) = some (true, "ok") := by
  suffices h : ∀ rows, validateAux "GENESIS" rows = some (true, "ok") →
      validateAux "GENESIS" (ops.foldl stepOp rows) = some (true, "ok") by
    exact h [] rfl
  induction ops with
  | nil => intro rows h2; simpa using h2
  | cons op rest ih =>
    intro rows h2
    exact ih _ (stepOp_preserves h2 op)

/-- C1: Starting from an empty ledger file, after every finite sequence of
successful `append_event` and `endorse_event` calls, `validate_chain`
returns `(true, "ok")` — in particular the empty ledger (`ops = []`) is
valid with `"ok"` — and each line's `prev_hash` equals the `record_hash` of
the line immediately before it, the literal `"GENESIS"` for the first. -/
theorem claim_C1_chain_valid (ops : List LedgerOp) :
    validate_chain_rows (runOps ops) = some (true, "ok") ∧
      chainLinked "GENESIS" (runOps ops) = true :=
  ⟨runOps_valid ops, validate_chainLinked (runOps_valid ops)⟩

theorem required_count_iff (at_ : String) :
    required_endorser_org_count at_ =
      (if at_ = "TRANSFER" ∨ at_ = "COURT_SUBMISSION" then 2 else 1) := by
  rw [required_endorser_org_count, requires_endorsement]
  by_cases h1 : at_ = "TRANSFER" <;> by_cases h2 : at_ = "COURT_SUBMISSION" <;>
    simp [h1, h2]

/-- C4: every `append_event` call stores `required_endorser_orgs = 2` when
the action type is TRANSFER or COURT_SUBMISSION and `1` otherwise, both in
the returned event and in the appended ledger line. -/
theorem claim_C4_required_orgs (rows : List Json) (a : AppendArgs) :
    (append_event rows a).1.required_endorser_orgs =
      (if a.action_type = "TRANSFER" ∨ a.action_type = "COURT_SUBMISSION" then 2 else 1) ∧
    ((append_event rows a).2.getLast?).bind (fun row => getKey row "required_endorser_orgs") =
      some (.num (if a.action_type = "TRANSFER" ∨ a.action_type = "COURT_SUBMISSION"
        then 2 else 1)) := by
  constructor
  · exact required_count_iff a.action_type
  · rw [append_event_snd, List.getLast?_concat]
    simp only [Option.some_bind, getKey]
    rw [sealRow_get_other _ _ (by decide) (by decide) (by decide),
      appendCanonical_get_required, required_count_iff]

theorem mem_ROLE_ACTIONS_iff_matrix (r : Role) (a : Action) :
    a ∈ ROLE_ACTIONS r ↔ matrixSpec r a := by
  cases r <;> cases a <;> simp [ROLE_ACTIONS, matrixSpec]

theorem require_action_ok_iff (p : Principal) (a : Action) :
    require_action p a = .ok () ↔ matrixSpec p.role a := by
  rw [require_action]
  by_cases h : a ∈ ROLE_ACTIONS p.role
  · simp [h, (mem_ROLE_ACTIONS_iff_matrix p.role a).mp h]
  · simp [h]
    exact fun hm => h ((mem_ROLE_ACTIONS_iff_matrix p.role a).mpr hm)

theorem require_action_err {p : Principal} {a : Action} (h : ¬ matrixSpec p.role a) :
    require_action p a =
      .error ("role " ++ roleStr p.role ++ " not permitted to perform " ++ actionStr a) := by
  rw [require_action, if_neg (fun hm => h ((mem_ROLE_ACTIONS_iff_matrix p.role a).mp hm))]

/-- C7: `require_action` succeeds exactly on the pairs of the §4.6 matrix,
and each write endpoint, when its gate action is not permitted for the
principal's role, fails with 403 and leaves the ledger and store
untouched. -/
theorem claim_C7_authorization :
    (∀ (p : Principal) (a : Action), require_action p a = .ok () ↔ matrixSpec p.role a) ∧
    (∀ st p req eu tu ts, ¬ matrixSpec p.role .REGISTER_EVIDENCE →
      errCode (intake st p req eu tu ts) = some 403 ∧
        stateAfter (intake st p req eu tu ts) st = st) ∧
    (∀ st p req tu ts, ¬ matrixSpec p.role .RECORD_EVENT →
      errCode (record_event st p req tu ts) = some 403 ∧
        stateAfter (record_event st p req tu ts) st = st) ∧
    (∀ st p eid tu ts, ¬ matrixSpec p.role .VERIFY_INTEGRITY →
      errCode (verify st p eid tu ts) = some 403 ∧
        stateAfter (verify st p eid tu ts) st = st) ∧
    (∀ st p req u ts, ¬ matrixSpec p.role .RECORD_EVENT →
      errCode (endorse st p req u ts) = some 403 ∧
        stateAfter (endorse st p req u ts) st = st) := by
  refine ⟨require_action_ok_iff, ?_, ?_, ?_, ?_⟩
  · intro st p req eu tu ts h
    rw [intake, require_action_err h]
    exact ⟨rfl, rfl⟩
  · intro st p req tu ts h
    rw [record_event, require_action_err h]
    exact ⟨rfl, rfl⟩
  · intro st p eid tu ts h
    rw [verify, require_action_err h]
    exact ⟨rfl, rfl⟩
  · intro st p req u ts h
    rw [endorse, require_action_err h]
    exact ⟨rfl, rfl⟩

/-- Witness for C7: a PROSECUTOR attempting `intake` is rejected with 403
and writes nothing. -/
theorem claim_C7_authorization_witness :
    ¬ matrixSpec Role.PROSECUTOR Action.REGISTER_EVIDENCE ∧
    errCode (intake stPlain prosecutorP
      ⟨"C2", "desc", none, "imaging", "g.bin", "PAYLOAD"⟩ "E9" "T9" "ts") = some 403 ∧
    stateAfter (intake stPlain prosecutorP
      ⟨"C2", "desc", none, "imaging", "g.bin", "PAYLOAD"⟩ "E9" "T9" "ts") stPlain = stPlain :=
  ⟨by decide,
   claim_C7_authorization.2.1 stPlain prosecutorP
     ⟨"C2", "desc", none, "imaging", "g.bin", "PAYLOAD"⟩ "E9" "T9" "ts" (by decide)⟩

/-- C6: `record_event` never fails on a hash mismatch — with the principal
authorized and the evidence present it succeeds for every
`presented_sha256`, and both the response and the appended ledger line
carry `integrity_ok = (presented == expected)`, true when `presented` is
null. -/
theorem claim_C6_integrity_recorded (st : ServerState) (p : Principal)
    (req : CustodyEventRequest) (tu ts : String) (ev : EvidenceRow)
    (hp : matrixSpec p.role .RECORD_EVENT)
    (hev : get_evidence st req.evidence_id = some ev) :
    (record_event st p req tu ts).isOk = true ∧
    (okResult (record_event st p req tu ts)).map (fun r => r.integrity_ok) =
      some (integritySpec req.presented_sha256 ev.sha256) ∧
    ((stateAfter (record_event st p req tu ts) st).rows.getLast?).bind
        (fun row => getKey row "integrity_ok") =
      some (.bool (integritySpec req.presented_sha256 ev.sha256)) := by
  have hre := (require_action_ok_iff p .RECORD_EVENT).mpr hp
  have hint : (match req.presented_sha256 with
      | none => true
      | some ps => ps == ev.sha256) = integritySpec req.presented_sha256 ev.sha256 := rfl
  rw [record_event, hre, hev]
  refine ⟨rfl, rfl, ?_⟩
  simp only [stateAfter]
  rw [append_event_snd, List.getLast?_concat]
  simp only [Option.some_bind, getKey]
  rw [sealRow_get_other _ _ (by decide) (by decide) (by decide),
    appendCanonical_get_integrity]
  rfl

/-- Witness for C6: an authorized ACCESS record with a mismatching
presented hash still succeeds and is written with `integrity_ok = false`. -/
theorem claim_C6_integrity_recorded_witness :
    matrixSpec analyst.role Action.RECORD_EVENT ∧
    get_evidence stPlain "E1" = some evidenceE1 ∧
    (record_event stPlain analyst ⟨"E1", .ACCESS, .obj .nil, some "BAD", false⟩ "T1" "ts").isOk
      = true ∧
    (okResult (record_event stPlain analyst
        ⟨"E1", .ACCESS, .obj .nil, some "BAD", false⟩ "T1" "ts")).map
      (fun r => r.integrity_ok) = some false := by
  have h := claim_C6_integrity_recorded stPlain analyst
    ⟨"E1", .ACCESS, .obj .nil, some "BAD", false⟩ "T1" "ts" evidenceE1
    (by decide) (by decide)
  exact ⟨by decide, by decide, h.1, by rw [h.2.1]; rfl⟩

/-- C8 (amended): `verify` rehashes the stored payload bytes exactly as
they sit on disk — it never consults `decrypt_from_storage` — and appends
an ACCESS event with `presented_sha256 = actual`, `integrity_ok = (actual
== expected)` and `endorse = true`, returning `(expected, actual,
integrity_ok)`.  A `TSENC1:`-prefixed payload therefore hashes as
ciphertext. -/
theorem claim_C8_verify_rehashes_raw (st : ServerState) (p : Principal)
    (eid tu ts : String) (ev : EvidenceRow) (bytes : String)
    (hp : matrixSpec p.role .VERIFY_INTEGRITY)
    (hev : get_evidence st eid = some ev)
    (hf : get_file_bytes st eid = some bytes) :
    okResult (verify st p eid tu ts) =
      some { evidence_id := eid, expected_sha256 := ev.sha256,
             actual_sha256 := sha256_bytes bytes,
             integrity_ok := (sha256_bytes bytes == ev.sha256) } ∧
    (stateAfter (verify st p eid tu ts) st).rows =
      st.rows ++ [.obj (sealRow p.user_id (appendCanonical st.rows
        { evidence_id := eid, action_type := "ACCESS", principal := p,
          expected_sha256 := ev.sha256, presented_sha256 := some (sha256_bytes bytes),
          integrity_ok := (sha256_bytes bytes == ev.sha256),
          details := .obj (jobjOfList [("purpose", .str "integrity_verification")]),
          endorse := true, tx_id := tu, timestamp := ts })).1] := by
  have hre := (require_action_ok_iff p .VERIFY_INTEGRITY).mpr hp
  rw [verify, hre, hev, hf]
  exact ⟨rfl, rfl⟩

/-- Witness for the amended C8 at a concrete plaintext store. -/
theorem claim_C8_verify_rehashes_raw_witness :
    matrixSpec analyst.role Action.VERIFY_INTEGRITY ∧
    get_evidence stPlain "E1" = some evidenceE1 ∧
    get_file_bytes stPlain "E1" = some "HELLO" ∧
    (okResult (verify stPlain analyst "E1" "T1" "ts")).map (fun r => r.integrity_ok) =
      some true := by
  have h := claim_C8_verify_rehashes_raw stPlain analyst "E1" "T1" "ts" evidenceE1 "HELLO"
    (by decide) (by decide) (by decide)
  exact ⟨by decide, by decide, by decide, by rw [h.1]; rfl⟩

/-- Counterexample to C8 as claimed: with the payload encrypted at rest
(`TSENC1:` prefix; the cipher would decrypt it back to a plaintext whose
hash equals the recorded one), `verify` reports `integrity_ok = false`
because it hashes the raw ciphertext and never decrypts — the claim
predicts `integrity_ok = true`. -/
theorem claim_C8_counterexample :
    get_file_bytes stEnc "E1" = some (encrypt_for_storage "K" "HELLO") ∧
    strStartsWith (encrypt_for_storage "K" "HELLO") encTag = true ∧
    decrypt_from_storage "K" (encrypt_for_storage "K" "HELLO") = .ok "HELLO" ∧
    sha256_bytes "HELLO" = evidenceE1.sha256 ∧
    (okResult (verify stEnc analyst "E1" "T1" "ts")).map (fun r => r.integrity_ok) =
      some false := by
  exact ⟨by decide, by decide, by rfl, by decide, by decide⟩

/-- C9 (amended): `endorse` returns 404 and appends nothing when the
*evidence id* is unknown; the target `tx_id` is never looked up — with the
evidence present and no duplicate-org conflict the call succeeds and
appends an ENDORSE line referencing `tx_id`, whether or not any event with
that `tx_id` exists. -/
theorem claim_C9_endorse_tx_unchecked (st : ServerState) (p : Principal)
    (req : EndorseRequest) (u ts : String)
    (hp : matrixSpec p.role .RECORD_EVENT) :
    (get_evidence st req.evidence_id = none →
      endorse st p req u ts = .error ⟨404, "evidence not found"⟩ ∧
        stateAfter (endorse st p req u ts) st = st) ∧
    (∀ ev, get_evidence st req.evidence_id = some ev →
      Json.str p.org_id ∉ endorser_orgs_for_tx st.rows req.tx_id →
      (endorse st p req u ts).isOk = true ∧
        (stateAfter (endorse st p req u ts) st).rows =
          st.rows ++ [.obj (sealRow p.user_id
            (endorseCanonical st.rows req.tx_id req.evidence_id p u ts)).1]) := by
  have hre := (require_action_ok_iff p .RECORD_EVENT).mpr hp
  constructor
  · intro hnone
    rw [endorse, hre, hnone]
    exact ⟨rfl, rfl⟩
  · intro ev hev hdup
    rw [endorse, hre, hev, endorse_event, if_neg hdup]
    exact ⟨rfl, rfl⟩

/-- Witness for the amended C9. -/
theorem claim_C9_endorse_tx_unchecked_witness :
    matrixSpec analyst.role Action.RECORD_EVENT ∧
    get_evidence stPlain "E1" = some evidenceE1 ∧
    (endorse stPlain analyst ⟨"E1", "SOME-TX"⟩ "U1" "ts").isOk = true := by
  have h := (claim_C9_endorse_tx_unchecked stPlain analyst ⟨"E1", "SOME-TX"⟩ "U1" "ts"
    (by decide)).2 evidenceE1 (by decide) (by decide)
  exact ⟨by decide, by decide, h.1⟩

/-- Counterexample to C9 as claimed: the ledger of `stPlain` is empty, so
no event whatsoever carries `tx_id = "TX-MISSING"`; yet `endorse` succeeds
(no 404) and appends an ENDORSE line referencing the unknown tx. -/
theorem claim_C9_counterexample :
    stPlain.rows = [] ∧
    (endorse stPlain analyst ⟨"E1", "TX-MISSING"⟩ "U1" "ts").isOk = true ∧
    errCode (endorse stPlain analyst ⟨"E1", "TX-MISSING"⟩ "U1" "ts") ≠ some 404 ∧
    ((stateAfter (endorse stPlain analyst ⟨"E1", "TX-MISSING"⟩ "U1" "ts") stPlain).rows.map
      (fun row => getKey row "action_type")) = [some (.str "ENDORSE")] ∧
    ((stateAfter (endorse stPlain analyst ⟨"E1", "TX-MISSING"⟩ "U1" "ts") stPlain).rows.map
      (fun row => getKey ((getKey row "details").getD .null) "endorsed_tx_id")) =
      [some (.str "TX-MISSING")] := by
  refine ⟨rfl, ?_, ?_, ?_, ?_⟩ <;> decide

theorem endorser_orgs_append (rows : List Json) (r : Json) (tx : String) :
    endorser_orgs_for_tx (rows ++ [r]) tx =
      (match endorseOrgOf tx r with
       | some o => insert o (endorser_orgs_for_tx rows tx)
       | none => endorser_orgs_for_tx rows tx) := by
  rw [endorser_orgs_for_tx, List.filterMap_append, List.toFinset_append]
  cases h : endorseOrgOf tx r with
  | some o =>
      simp [List.filterMap, h, endorser_orgs_for_tx, Finset.union_comm, Finset.insert_eq]
  | none => simp [List.filterMap, h, endorser_orgs_for_tx]

/-- What the ENDORSE row written by `endorse_event` contributes to the
endorser-org scan for a target `tx2`. -/
theorem endorseOrgOf_sealed_endorse (rows : List Json) (tx eid : String) (p : Principal)
    (u t tx2 : String) :
    endorseOrgOf tx2 (.obj (sealRow p.user_id (endorseCanonical rows tx eid p u t)).1) =
      (if tx ≠ "" ∧ tx2 = tx ∧ p.org_id ≠ "" then some (.str p.org_id) else none) := by
  have hact : jobjGet (sealRow p.user_id (endorseCanonical rows tx eid p u t)).1
      "action_type" = some (.str "ENDORSE") := by
    rw [sealRow_get_other _ _ (by decide) (by decide) (by decide),
      endorseCanonical_get_action]
  have hdet : jobjGet (sealRow p.user_id (endorseCanonical rows tx eid p u t)).1
      "details" = some (.obj (jobjOfList [("endorsed_tx_id", .str tx)])) := by
    rw [sealRow_get_other _ _ (by decide) (by decide) (by decide),
      endorseCanonical_get_details]
  have horg : jobjGet (sealRow p.user_id (endorseCanonical rows tx eid p u t)).1
      "actor_org_id" = some (.str p.org_id) := by
    rw [sealRow_get_other _ _ (by decide) (by decide) (by decide),
      endorseCanonical_get_org]
  rw [endorseOrgOf]
  rw [hact, hdet, horg]
  simp only [jobjOfList, getKey, jobjGet, truthy]
  by_cases h1 : tx = ""
  · subst h1
    simp [jobjGet, truthy]
  · by_cases h2 : tx2 = tx
    · subst h2
      by_cases h3 : p.org_id = "" <;> simp [h1, h3, truthy, jobjGet]
    · have h5 : Json.str tx ≠ Json.str tx2 := by
        intro h6
        exact h2 (by injection h6 with h7; exact h7.symm)
      simp [h1, h2, h5, truthy, jobjGet]

theorem addEndorsementOrgs_append_args (base : Finset Json) (a : AppendArgs)
    (h : a.endorse = true) :
    addEndorsementOrgs base (appendEndorsements a) =
      (if a.principal.org_id = "" then base
       else insert (.str a.principal.org_id) base) := by
  by_cases hO : a.principal.org_id = "" <;>
    simp [appendEndorsements, h, addEndorsementOrgs, getKey, jobjGet, jobjOfList, truthy, hO]

theorem stepOp_endorse_success {rows : List Json} {tx eid : String} {p : Principal}
    {u t : String} (hdup : Json.str p.org_id ∉ endorser_orgs_for_tx rows tx) :
    stepOp rows (.endorse tx eid p u t) =
      rows ++ [.obj (sealRow p.user_id (endorseCanonical rows tx eid p u t)).1] := by
  rw [stepOp, endorse_event, if_neg hdup]

/-- C10: an event appended with `endorse = true` carries the actor's org in
its write-time endorsement list, yet a later `endorse_event` for the same
tx by a principal of that very org is not treated as a duplicate — the
duplicate check consults only prior ENDORSE lines — and the new ENDORSE
line leaves the unique endorser-org count of
`compute_endorsement_status` unchanged.  `hsafe` scopes the statement to
ledgers the Python scan traverses without raising. -/
theorem claim_C10_write_time_endorsements_not_consulted
    (rows0 : List Json) (a : AppendArgs) (p : Principal) (eid u t : String)
    (hend : a.endorse = true)
    (horg2 : p.org_id = a.principal.org_id)
    (hsafe : scanSafe (append_event rows0 a).2 = true)
    (hdup : Json.str p.org_id ∉ endorser_orgs_for_tx (append_event rows0 a).2 a.tx_id) :
    (append_event rows0 a).1.tx_id = a.tx_id ∧
    (jarrToList (append_event rows0 a).1.endorsements).map (fun e => getKey e "org_id") =
      [some (.str a.principal.org_id)] ∧
    (endorse_event (append_event rows0 a).2 a.tx_id eid p u t).isOk = true ∧
    (compute_endorsement_status
        (stepOp (append_event rows0 a).2 (.endorse a.tx_id eid p u t))
        (append_event rows0 a).1).2.1 =
      (compute_endorsement_status (append_event rows0 a).2 (append_event rows0 a).1).2.1 := by
  have hEnd : (append_event rows0 a).1.endorsements = appendEndorsements a := rfl
  have htx : (append_event rows0 a).1.tx_id = a.tx_id := rfl
  refine ⟨rfl, ?_, ?_, ?_⟩
  · rw [hEnd]
    simp [hend, appendEndorsements, jarrToList, getKey, jobjOfList, jobjGet]
  · rw [endorse_event, if_neg hdup]
    rfl
  · rw [stepOp_endorse_success hdup]
    rw [compute_endorsement_status, compute_endorsement_status]
    simp only [hEnd, htx]
    rw [endorser_orgs_append, endorseOrgOf_sealed_endorse]
    rw [addEndorsementOrgs_append_args _ a hend, addEndorsementOrgs_append_args _ a hend]
    by_cases hO : a.principal.org_id = ""
    · rw [if_pos hO]
      rw [if_neg (by rw [horg2]; simp [hO])]
      rw [if_pos hO]
    · rw [if_neg hO, if_neg hO]
      by_cases hT : a.tx_id = ""
      · rw [if_neg (by simp [hT])]
      · rw [if_pos ⟨hT, rfl, by rw [horg2]; exact hO⟩, horg2]
        simp [Finset.insert_idem]

/-- Witness for C10: the KPS officer appends a TRANSFER with
`endorse = true`; a KPS supervisor (same org) then endorses it without a
duplicate error, and the unique endorser-org count stays 1. -/
theorem claim_C10_write_time_endorsements_not_consulted_witness :
    transferArgs.endorse = true ∧
    kpsSupervisor.org_id = transferArgs.principal.org_id ∧
    scanSafe (append_event [] transferArgs).2 = true ∧
    Json.str kpsSupervisor.org_id ∉
      endorser_orgs_for_tx (append_event [] transferArgs).2 transferArgs.tx_id ∧
    (endorse_event (append_event [] transferArgs).2 transferArgs.tx_id "E1"
      kpsSupervisor "U3" "t2").isOk = true ∧
    (compute_endorsement_status
        (stepOp (append_event [] transferArgs).2
          (.endorse transferArgs.tx_id "E1" kpsSupervisor "U3" "t2"))
        (append_event [] transferArgs).1).2.1 =
      (compute_endorsement_status (append_event [] transferArgs).2
        (append_event [] transferArgs).1).2.1 := by
  have h := claim_C10_write_time_endorsements_not_consulted [] transferArgs kpsSupervisor
    "E1" "U3" "t2" rfl (by decide) (by decide) (by decide)
  exact ⟨rfl, by decide, by decide, by decide, h.2.2.1, h.2.2.2⟩

theorem addEndorsementOrgs_eq (base : Finset Json) (l : JArr) :
    addEndorsementOrgs base l = base ∪ ((jarrToList l).filterMap entryOrg).toFinset := by
  induction l using jarrInd generalizing base with
  | hnil => simp [addEndorsementOrgs, jarrToList]
  | hcons e tl ih =>
    rw [addEndorsementOrgs]
    rw [ih]
    simp only [jarrToList, List.filterMap_cons, entryOrg]
    cases hg : getKey e "org_id" with
    | none => rfl
    | some org =>
      by_cases ht : truthy org
      · simp [ht, Finset.insert_union, Finset.union_insert]
      · simp [ht]

/-- C3 (amended): `compute_endorsement_status` returns FINAL exactly when
the number of distinct *truthy* org ids — across the event's write-time
endorsements and the ENDORSE lines whose truthy `details.endorsed_tx_id`
equals the event's `tx_id` — is at least `max 1 e.required_endorser_orgs`,
and the returned `unique` component is that count.  `hs`/`he` scope the
statement to data the Python scan traverses without raising. -/
theorem claim_C3_endorsement_status (rows : List Json) (ev : LedgerEvent)
    (hs : scanSafe rows = true) (he : eventEndorsementsSafe ev = true) :
    ((compute_endorsement_status rows ev).1 = "FINAL" ↔
      (specEndorserOrgCount rows ev : Int) ≥ max 1 ev.required_endorser_orgs) ∧
    (compute_endorsement_status rows ev).2.1 = specEndorserOrgCount rows ev := by
  have hset : addEndorsementOrgs (endorser_orgs_for_tx rows ev.tx_id) ev.endorsements =
      (((jarrToList ev.endorsements).filterMap entryOrg) ++
        rows.filterMap (endorseOrgOf ev.tx_id)).toFinset := by
    rw [addEndorsementOrgs_eq, List.toFinset_append, endorser_orgs_for_tx,
      Finset.union_comm]
  have hcard : (compute_endorsement_status rows ev).2.1 = specEndorserOrgCount rows ev := by
    rw [compute_endorsement_status, specEndorserOrgCount]
    simp only [hset]
  refine ⟨?_, hcard⟩
  rw [compute_endorsement_status]
  simp only
  by_cases hge :
      ((addEndorsementOrgs (endorser_orgs_for_tx rows ev.tx_id) ev.endorsements).card : Int) ≥
        max 1 ev.required_endorser_orgs
  · rw [if_pos hge]
    simp only [true_iff, specEndorserOrgCount]
    rw [← hset]
    exact hge
  · rw [if_neg hge]
    constructor
    · intro h2
      exact absurd h2 (by decide)
    · intro h2
      exact absurd (by rw [specEndorserOrgCount, ← hset] at h2; exact h2) hge

/-- Counterexample to C3 as claimed: (i) an event with
`required_endorser_orgs = 0` has 0 distinct orgs ≥ 0, so the claim
predicts FINAL, but the code floors the quorum at `max(1, ·)` and reports
PENDING_ENDORSEMENT; (ii) an event whose only write-time endorsement
carries `org_id = ""` has 1 distinct org id per the claim's count — claim
predicts FINAL at quorum 1 — but the code's truthiness filter drops it and
reports PENDING_ENDORSEMENT. -/
theorem claim_C3_counterexample :
    ((compute_endorsement_status [] evZeroQuorum).1 ≠ "FINAL" ∧
      (claimDistinctOrgs [] evZeroQuorum : Int) ≥ evZeroQuorum.required_endorser_orgs) ∧
    ((compute_endorsement_status [] evBlankOrg).1 ≠ "FINAL" ∧
      (claimDistinctOrgs [] evBlankOrg : Int) ≥ evBlankOrg.required_endorser_orgs) := by
  exact ⟨⟨by decide, by decide⟩, ⟨by decide, by decide⟩⟩

/-- Witness for the amended C3, at the repository's own test scenario: a
TRANSFER endorsed at write time by one org is PENDING_ENDORSEMENT
(1 < 2). -/
theorem claim_C3_endorsement_status_witness :
    scanSafe [] = true ∧
    eventEndorsementsSafe (append_event [] transferArgs).1 = true ∧
    ((compute_endorsement_status [] (append_event [] transferArgs).1).1 = "FINAL" ↔
      (specEndorserOrgCount [] (append_event [] transferArgs).1 : Int) ≥
        max 1 (append_event [] transferArgs).1.required_endorser_orgs) ∧
    (compute_endorsement_status [] (append_event [] transferArgs).1).2.1 =
      specEndorserOrgCount [] (append_event [] transferArgs).1 := by
  have h := claim_C3_endorsement_status [] (append_event [] transferArgs).1
    (by decide) (by decide)
  exact ⟨by decide, by decide, h.1, h.2⟩

/-- Looking a key up in `(row.get("details") or {})` is the same as looking
it up in `row.get("details")` with null fallback: every falsy or non-dict
`details` yields `None` either way. -/
theorem dj_getKey_eq (dopt : Option Json) (k : String) :
    getKey (match dopt with
            | some d => if truthy d then d else Json.obj .nil
            | none => Json.obj .nil) k =
      getKey (dopt.getD .null) k := by
  cases dopt with
  | none => rfl
  | some d =>
    cases d with
    | null => simp [truthy, getKey, jobjGet]
    | bool b => cases b <;> simp [truthy, getKey, jobjGet]
    | num n =>
        by_cases h : n = 0 <;> simp [truthy, getKey, jobjGet, h]
    | str s => by_cases h : s = "" <;> simp [truthy, getKey, jobjGet, h]
    | arr xs => cases xs <;> simp [truthy, getKey, jobjGet]
    | obj kvs2 => cases kvs2 <;> simp [truthy, getKey, jobjGet]

theorem endorseOrgOf_obj (tx : String) (kvs : JObj) :
    endorseOrgOf tx (.obj kvs) =
      (if jobjGet kvs "action_type" ≠ some (.str "ENDORSE") then none
       else
        match getKey ((jobjGet kvs "details").getD .null) "endorsed_tx_id" with
        | some etx =>
            if !truthy etx then none
            else if etx ≠ .str tx then none
            else
              match jobjGet kvs "actor_org_id" with
              | some org => if truthy org then some org else none
              | none => none
        | none => none) := by
  simp only [endorseOrgOf]
  rw [dj_getKey_eq]

theorem getKey_obj (kvs : JObj) (k : String) : getKey (.obj kvs) k = jobjGet kvs k := rfl

theorem endorseOrgOf_eq_some_str {tx : String} {row : Json} {o : String} :
    endorseOrgOf tx row = some (.str o) ↔
      tx ≠ "" ∧ o ≠ "" ∧ isEndorseLineFor row tx o = true := by
  cases row with
  | obj kvs =>
    rw [endorseOrgOf_obj, isEndorseLineFor]
    simp only [getKey_obj, Bool.and_eq_true, beq_iff_eq]
    by_cases ha : jobjGet kvs "action_type" = some (.str "ENDORSE")
    · rw [if_neg (by simp [ha])]
      cases he : getKey ((jobjGet kvs "details").getD .null) "endorsed_tx_id" with
      | none => simp [ha, he]
      | some etx =>
        dsimp only
        by_cases h1 : truthy etx
        · rw [if_neg (by simp [h1])]
          by_cases h2 : etx = .str tx
          · subst h2
            rw [if_neg (by simp)]
            cases ho : jobjGet kvs "actor_org_id" with
            | none => simp [ha, he, ho]
            | some org =>
              dsimp only
              by_cases h3 : truthy org
              · rw [if_pos h3]
                constructor
                · intro h4
                  injection h4 with h5
                  subst h5
                  exact ⟨by simpa [truthy] using h1, by simpa [truthy] using h3,
                    ⟨ha, rfl⟩, rfl⟩
                · rintro ⟨-, -, -, h4⟩
                  injection h4 with h6
                  rw [h6]
              · rw [if_neg h3]
                constructor
                · intro h4
                  exact absurd h4 (by simp)
                · rintro ⟨-, h5, -, h4⟩
                  injection h4 with h6
                  rw [h6] at h3
                  exact absurd (by simpa [truthy] using h5) h3
          · rw [if_pos (by simpa using h2)]
            constructor
            · intro h4
              exact absurd h4 (by simp)
            · rintro ⟨-, -, ⟨-, h5⟩, -⟩
              injection h5 with h6
              exact absurd h6 h2
        · rw [if_pos (by simpa using h1)]
          constructor
          · intro h4
            exact absurd h4 (by simp)
          · rintro ⟨htx, -, ⟨-, h5⟩, -⟩
            injection h5 with h6
            rw [h6] at h1
            exact absurd (by simpa [truthy] using htx) h1
    · rw [if_pos (by simpa using ha)]
      constructor
      · intro h4
        exact absurd h4 (by simp)
      · rintro ⟨-, -, ⟨h5, -⟩, -⟩
        exact absurd h5 ha
  | null => simp [endorseOrgOf, isEndorseLineFor, getKey]
  | bool b => simp [endorseOrgOf, isEndorseLineFor, getKey]
  | num n => simp [endorseOrgOf, isEndorseLineFor, getKey]
  | str s2 => simp [endorseOrgOf, isEndorseLineFor, getKey]
  | arr xs => simp [endorseOrgOf, isEndorseLineFor, getKey]


theorem mem_endorser_orgs_iff (rows : List Json) (tx org : String) :
    (Json.str org ∈ endorser_orgs_for_tx rows tx) ↔ priorEndorseAm rows tx org = true := by
  rw [endorser_orgs_for_tx, List.mem_toFinset, List.mem_filterMap, priorEndorseAm,
    claimPriorLine]
  simp only [Bool.and_eq_true, bne_iff_ne, ne_eq, List.any_eq_true]
  constructor
  · rintro ⟨row, hrow, hsome⟩
    obtain ⟨htx, ho, hline⟩ := endorseOrgOf_eq_some_str.mp hsome
    exact ⟨⟨htx, ho⟩, row, hrow, hline⟩
  · rintro ⟨⟨htx, ho⟩, row, hrow, hline⟩
    exact ⟨row, hrow, endorseOrgOf_eq_some_str.mpr ⟨htx, ho, hline⟩⟩

theorem endorseLineCount_append (rows : List Json) (r : Json) (tx org : String) :
    endorseLineCount (rows ++ [r]) tx org =
      endorseLineCount rows tx org + (if isEndorseLineFor r tx org then 1 else 0) := by
  rw [endorseLineCount, endorseLineCount, List.filter_append, List.length_append]
  by_cases h : isEndorseLineFor r tx org <;> simp [h]

theorem isEndorseLineFor_append_row (rows : List Json) (a : AppendArgs) (tx org : String)
    (h : a.action_type ≠ "ENDORSE") :
    isEndorseLineFor (.obj (sealRow a.principal.user_id (appendCanonical rows a)).1)
      tx org = false := by
  rw [isEndorseLineFor]
  have hact : getKey (Json.obj (sealRow a.principal.user_id (appendCanonical rows a)).1)
      "action_type" = some (.str a.action_type) := by
    rw [getKey_obj, sealRow_get_other _ _ (by decide) (by decide) (by decide),
      appendCanonical_get_action]
  rw [hact]
  simp [h]

theorem isEndorseLineFor_endorse_row (rows : List Json) (tx2 eid : String) (p : Principal)
    (u t tx org : String) :
    isEndorseLineFor (.obj (sealRow p.user_id (endorseCanonical rows tx2 eid p u t)).1)
      tx org = (tx2 == tx && p.org_id == org) := by
  rw [isEndorseLineFor]
  have hact : getKey (Json.obj (sealRow p.user_id (endorseCanonical rows tx2 eid p u t)).1)
      "action_type" = some (.str "ENDORSE") := by
    rw [getKey_obj, sealRow_get_other _ _ (by decide) (by decide) (by decide),
      endorseCanonical_get_action]
  have hdet : getKey (Json.obj (sealRow p.user_id (endorseCanonical rows tx2 eid p u t)).1)
      "details" = some (.obj (jobjOfList [("endorsed_tx_id", .str tx2)])) := by
    rw [getKey_obj, sealRow_get_other _ _ (by decide) (by decide) (by decide),
      endorseCanonical_get_details]
  have horg : getKey (Json.obj (sealRow p.user_id (endorseCanonical rows tx2 eid p u t)).1)
      "actor_org_id" = some (.str p.org_id) := by
    rw [getKey_obj, sealRow_get_other _ _ (by decide) (by decide) (by decide),
      endorseCanonical_get_org]
  rw [hact, hdet, horg]
  simp only [Option.getD_some, getKey_obj, jobjOfList, jobjGet]
  by_cases h1 : tx2 = tx
  · subst h1
    by_cases h2 : p.org_id = org
    · subst h2
      simp [jobjGet]
    · have e1 : (Json.str p.org_id == Json.str org) = false := by
        rw [beq_eq_false_iff_ne]
        intro hc
        injection hc with hc2
        exact h2 hc2
      have e2 : (p.org_id == org) = false := by
        rw [beq_eq_false_iff_ne]
        exact h2
      simp [jobjGet, e1, e2]
  · have e1 : (Json.str tx2 == Json.str tx) = false := by
      rw [beq_eq_false_iff_ne]
      intro hc
      injection hc with hc2
      exact h1 hc2
    have e2 : (tx2 == tx) = false := by
      rw [beq_eq_false_iff_ne]
      exact h1
    simp [jobjGet, e1, e2]

/-- The exclusivity invariant: as long as ENDORSE records are only written
by `endorse_event` (never routed through `append_event`), no ledger
reachable from empty holds two ENDORSE lines for the same non-empty target
and the same non-empty org. -/
theorem runOps_endorse_exclusive (ops : List LedgerOp)
    (h : ∀ op ∈ ops, opKeepsEndorseExclusive op = true) :
    ∀ tx org, tx ≠ "" → org ≠ "" → endorseLineCount (runOps ops) tx org ≤ 1 := by
  suffices hstep : ∀ ops2 : List LedgerOp, (∀ op ∈ ops2, opKeepsEndorseExclusive op = true) →
      ∀ rows, (∀ tx org, tx ≠ "" → org ≠ "" → endorseLineCount rows tx org ≤ 1) →
      ∀ tx org, tx ≠ "" → org ≠ "" →
        endorseLineCount (ops2.foldl stepOp rows) tx org ≤ 1 by
    exact hstep ops h [] (fun tx org _ _ => by simp [endorseLineCount, List.filter])
  intro ops2
  induction ops2 with
  | nil => intro _ rows hP; exact hP
  | cons op rest ih =>
    intro hops rows hP
    refine ih (fun op2 hmem => hops op2 (List.mem_cons_of_mem _ hmem)) (stepOp rows op) ?_
    intro tx2 org2 htx2 horg2
    have hop := hops op (List.mem_cons_self _ _)
    cases op with
    | append a =>
      rw [stepOp, append_event_snd, endorseLineCount_append,
        isEndorseLineFor_append_row rows a tx2 org2 (by simpa [opKeepsEndorseExclusive,
          bne_iff_ne] using hop)]
      simpa using hP tx2 org2 htx2 horg2
    | endorse tx3 eid p u t =>
      rw [stepOp]
      cases hE : endorse_event rows tx3 eid p u t with
      | error e => exact hP tx2 org2 htx2 horg2
      | ok r =>
        obtain ⟨hr2, hdup⟩ := endorse_event_ok hE
        change endorseLineCount r.2 tx2 org2 ≤ 1
        rw [hr2, endorseLineCount_append, isEndorseLineFor_endorse_row]
        by_cases hm : tx3 = tx2 ∧ p.org_id = org2
        · obtain ⟨hm1, hm2⟩ := hm
          subst hm1; subst hm2
          have hzero : endorseLineCount rows tx3 p.org_id = 0 := by
            by_contra hnz
            have hpos : 0 < (rows.filter
                (fun row => isEndorseLineFor row tx3 p.org_id)).length :=
              Nat.pos_of_ne_zero hnz
            obtain ⟨r0, hr0⟩ := List.exists_mem_of_length_pos hpos
            have hr0m := List.mem_filter.mp hr0
            exact hdup ((mem_endorser_orgs_iff rows tx3 p.org_id).mpr
              (by
                rw [priorEndorseAm, claimPriorLine]
                simp only [Bool.and_eq_true, bne_iff_ne, ne_eq, List.any_eq_true]
                exact ⟨⟨htx2, horg2⟩, r0, hr0m.1, hr0m.2⟩))
          rw [hzero]
          simp
        · have hff : (tx3 == tx2 && p.org_id == org2) = false := by
            rcases not_and_or.mp hm with hne | hne <;> simp [hne]
          rw [hff]
          simpa using hP tx2 org2 htx2 horg2


/-- C5 (amended): `endorse_event` raises `duplicate endorsement from org`
exactly when a prior ENDORSE line exists whose *non-empty*
`details.endorsed_tx_id` equals the target and whose *non-empty*
`actor_org_id` equals the caller's org (empty strings are dropped by the
truthiness filters of the scan); on that error nothing is appended; and as
long as ENDORSE records only enter through `endorse_event` (an
`append_event`/`record_event` with `action_type = "ENDORSE"` bypasses the
check), no two ENDORSE lines for the same non-empty target carry the same
non-empty org. -/
theorem claim_C5_duplicate_endorsement :
    (∀ (rows : List Json) (tx eid : String) (p : Principal) (u t : String),
      scanSafe rows = true →
      (endorse_event rows tx eid p u t = .error "duplicate endorsement from org" ↔
        priorEndorseAm rows tx p.org_id = true)) ∧
    (∀ (rows : List Json) (tx eid : String) (p : Principal) (u t : String),
      (endorse_event rows tx eid p u t).isOk = false →
        stepOp rows (.endorse tx eid p u t) = rows) ∧
    (∀ ops : List LedgerOp, (∀ op ∈ ops, opKeepsEndorseExclusive op = true) →
      ∀ tx org, tx ≠ "" → org ≠ "" → endorseLineCount (runOps ops) tx org ≤ 1) := by
  refine ⟨?_, ?_, runOps_endorse_exclusive⟩
  · intro rows tx eid p u t _
    rw [← mem_endorser_orgs_iff]
    by_cases hmem : Json.str p.org_id ∈ endorser_orgs_for_tx rows tx
    · rw [endorse_event, if_pos hmem]
      simp [hmem]
    · rw [endorse_event, if_neg hmem]
      simp [hmem]
  · intro rows tx eid p u t hfail
    rw [stepOp]
    cases hE : endorse_event rows tx eid p u t with
    | error e => rfl
    | ok r => rw [hE] at hfail; exact absurd hfail (by simp [Except.isOk, Except.toBool])

/-- Witness for the amended C5: after FORENSIC_LAB endorses tx `"T7"`, a
second endorsement by the same org raises the duplicate error and leaves
the ledger unchanged, and a run of two endorse operations keeps at most
one ENDORSE line per (target, org). -/
theorem claim_C5_duplicate_endorsement_witness :
    scanSafe (stepOp [] (.endorse "T7" "E1" analyst "U1" "t1")) = true ∧
    priorEndorseAm (stepOp [] (.endorse "T7" "E1" analyst "U1" "t1")) "T7"
      analyst.org_id = true ∧
    endorse_event (stepOp [] (.endorse "T7" "E1" analyst "U1" "t1")) "T7" "E2"
      analyst "U2" "t2" = .error "duplicate endorsement from org" ∧
    stepOp (stepOp [] (.endorse "T7" "E1" analyst "U1" "t1"))
        (.endorse "T7" "E2" analyst "U2" "t2") =
      stepOp [] (.endorse "T7" "E1" analyst "U1" "t1") ∧
    endorseLineCount (runOps [.endorse "T7" "E1" analyst "U1" "t1",
      .endorse "T7" "E2" analyst "U2" "t2"]) "T7" "FORENSIC_LAB" ≤ 1 := by
  have h1 := (claim_C5_duplicate_endorsement.1
    (stepOp [] (.endorse "T7" "E1" analyst "U1" "t1")) "T7" "E2" analyst "U2" "t2"
    (by decide)).mpr (by decide)
  have h2 := claim_C5_duplicate_endorsement.2.1
    (stepOp [] (.endorse "T7" "E1" analyst "U1" "t1")) "T7" "E2" analyst "U2" "t2"
    (by rw [h1]; rfl)
  have h3 := claim_C5_duplicate_endorsement.2.2
    [.endorse "T7" "E1" analyst "U1" "t1", .endorse "T7" "E2" analyst "U2" "t2"]
    (by intro op hmem; fin_cases hmem <;> rfl) "T7" "FORENSIC_LAB"
    (by decide) (by decide)
  exact ⟨by decide, by decide, h1, h2, h3⟩

/-- Counterexample to C5 as claimed: (i) two ENDORSE-typed records for the
same target `"T9"` by the same org `"KPS"` enter the ledger through
`append_event` (reachable from the API via `record_event`, which admits
`action_type = "ENDORSE"`), so the chain holds two ENDORSE events for one
target with one org; (ii) with an empty org id, a prior matching ENDORSE
line exists in the claim's own terms, yet a second `endorse_event` does
not raise — the truthiness filter never sees empty orgs — and appends a
second matching line. -/
theorem claim_C5_counterexample :
    endorseLineCount dupEndorseRows "T9" "KPS" = 2 ∧
    claimPriorLine blankRows1 "T9" "" = true ∧
    (endorse_event blankRows1 "T9" "E1" ⟨"analyst3", .FORENSIC_ANALYST, ""⟩
      "U2" "t2").isOk = true ∧
    endorseLineCount blankRows2 "T9" "" = 2 := by
  exact ⟨by decide, by decide, by decide, by decide⟩

theorem loads_nil : loads "" = none := rfl

theorem rowOk_hash_fail {prev : String} {kvs : JObj}
    (h : jeqStr (jobjGet kvs "record_hash") (rowHash kvs) = false) :
    rowOk prev kvs = (false, "record hash mismatch") := by
  rw [rowOk]
  simp [h]

theorem fileLast_cons_skip {l : String} {prev : String} {rest : List String}
    (hs : pyStrip l = "") : fileLast prev (l :: rest) = fileLast prev rest := by
  rw [fileLast, if_pos hs]

theorem fileLast_cons_obj {l : String} {prev : String} {rest : List String} {kvs : JObj}
    (hs : pyStrip l ≠ "") (hl : loads (pyStrip l) = some (.obj kvs)) :
    fileLast prev (l :: rest) = fileLast (rowHash kvs) rest := by
  rw [fileLast, if_neg hs, hl]

theorem validateFileAux_append {xs : List String} : ∀ {prev : String} {ys : List String},
    validateFileAux prev xs = some (true, "ok") →
    validateFileAux prev (xs ++ ys) = validateFileAux (fileLast prev xs) ys := by
  induction xs with
  | nil => intro prev ys _; rfl
  | cons l rest ih =>
    intro prev ys h
    rw [validateFileAux] at h
    rw [List.cons_append, validateFileAux]
    by_cases hs : pyStrip l = ""
    · rw [if_pos hs] at h ⊢
      rw [fileLast_cons_skip hs]
      exact ih h
    · rw [if_neg hs] at h ⊢
      cases hl : loads (pyStrip l) with
      | none => rw [hl] at h; exact nomatch h
      | some row =>
        rw [hl] at h
        cases row with
        | obj kvs =>
          dsimp only at h ⊢
          rw [fileLast_cons_obj hs hl]
          rcases hok : rowOk prev kvs with ⟨b, s⟩
          rw [hok] at h
          cases b with
          | false => exact nomatch h
          | true => exact ih h
        | null => exact nomatch h
        | bool b => exact nomatch h
        | num n => exact nomatch h
        | str s2 => exact nomatch h
        | arr a2 => exact nomatch h

theorem validateFileAux_append_inv {xs : List String} : ∀ {prev : String} {ys : List String},
    validateFileAux prev (xs ++ ys) = some (true, "ok") →
    validateFileAux prev xs = some (true, "ok") := by
  induction xs with
  | nil => intro prev ys _; rfl
  | cons l rest ih =>
    intro prev ys h
    rw [List.cons_append, validateFileAux] at h
    rw [validateFileAux]
    by_cases hs : pyStrip l = ""
    · rw [if_pos hs] at h ⊢
      exact ih h
    · rw [if_neg hs] at h ⊢
      cases hl : loads (pyStrip l) with
      | none => rw [hl] at h; exact nomatch h
      | some row =>
        rw [hl] at h
        cases row with
        | obj kvs =>
          dsimp only at h ⊢
          rcases hok : rowOk prev kvs with ⟨b, s⟩
          rw [hok] at h
          cases b with
          | false => exact nomatch h
          | true => exact ih h
        | null => exact nomatch h
        | bool b => exact nomatch h
        | num n => exact nomatch h
        | str s2 => exact nomatch h
        | arr a2 => exact nomatch h

theorem validateFileAux_congr {l l2 : String} (h3 : loads (pyStrip l2) = loads (pyStrip l))
    (h1 : pyStrip l ≠ "") (h2 : pyStrip l2 ≠ "") :
    ∀ (pre : List String) (prev : String) (post : List String),
    validateFileAux prev (pre ++ l2 :: post) = validateFileAux prev (pre ++ l :: post) := by
  intro pre
  induction pre with
  | nil =>
    intro prev post
    rw [List.nil_append, List.nil_append, validateFileAux, validateFileAux,
      if_neg h1, if_neg h2, h3]
  | cons l0 rest ih =>
    intro prev post
    rw [List.cons_append, List.cons_append, validateFileAux, validateFileAux]
    by_cases hs : pyStrip l0 = ""
    · rw [if_pos hs, if_pos hs]
      exact ih prev post
    · rw [if_neg hs, if_neg hs]
      cases hl : loads (pyStrip l0) with
      | none => rfl
      | some row =>
        cases row with
        | obj kvs =>
          dsimp only
          rcases hok : rowOk prev kvs with ⟨b, s⟩
          cases b with
          | false => rfl
          | true => exact ih (rowHash kvs) post
        | null => rfl
        | bool b => rfl
        | num n => rfl
        | str s2 => rfl
        | arr a2 => rfl

/-- Claim C2 (corrected).  The original claim — every single-byte flip of a
validating ledger line makes `validate_chain` return false — is refuted by
`claim_C2_counterexample`: flipping an inter-token separator space to a tab
changes a byte but not `json.loads`, and validation still returns
`(true, "ok")`, because each line is re-serialised canonically before
hashing.  Amended property, both directions: (1) if a line of a validating
file is replaced by a parsable line whose parse differs materially — its
canonical serialisation without `record_hash` changes while the stored
`record_hash` does not, or vice versa — then `validate_chain` returns
`(false, "record hash mismatch")`; (2) if the replacement parses to the
very same value (e.g. a whitespace flip), `validate_chain` is unchanged. -/
theorem claim_C2_byte_flip_detection :
    (∀ (pre post : List String) (l l2 : String) (kvs kvs2 : JObj),
        validate_chain (pre ++ l :: post) = some (true, "ok") →
        pyStrip l ≠ "" → pyStrip l2 ≠ "" →
        loads (pyStrip l) = some (.obj kvs) →
        loads (pyStrip l2) = some (.obj kvs2) →
        ((dumpsMin (.obj (jobjPop kvs2 "record_hash")) ≠
            dumpsMin (.obj (jobjPop kvs "record_hash")) ∧
          jobjGet kvs2 "record_hash" = jobjGet kvs "record_hash") ∨
         (dumpsMin (.obj (jobjPop kvs2 "record_hash")) =
            dumpsMin (.obj (jobjPop kvs "record_hash")) ∧
          jobjGet kvs2 "record_hash" ≠ jobjGet kvs "record_hash")) →
        validate_chain (pre ++ l2 :: post) = some (false, "record hash mismatch")) ∧
    (∀ (pre post : List String) (l l2 : String),
        loads (pyStrip l2) = loads (pyStrip l) →
        pyStrip l ≠ "" → pyStrip l2 ≠ "" →
        validate_chain (pre ++ l2 :: post) = validate_chain (pre ++ l :: post)) := by
  constructor
  · intro pre post l l2 kvs kvs2 hv hs hs2 hl hl2 hd
    rw [validate_chain] at hv ⊢
    have hpre : validateFileAux "GENESIS" pre = some (true, "ok") :=
      validateFileAux_append_inv hv
    have htail : validateFileAux (fileLast "GENESIS" pre) (l :: post) = some (true, "ok") :=
      (@validateFileAux_append pre "GENESIS" (l :: post) hpre).symm.trans hv
    rw [validateFileAux, if_neg hs, hl] at htail
    dsimp only at htail
    rcases hok : rowOk (fileLast "GENESIS" pre) kvs with ⟨b, s⟩
    rw [hok] at htail
    cases b with
    | false => exact nomatch htail
    | true =>
      have hstored : jobjGet kvs "record_hash" = some (.str (rowHash kvs)) :=
        (rowOk_true_elim hok).1
      rw [@validateFileAux_append pre "GENESIS" (l2 :: post) hpre]
      rw [validateFileAux, if_neg hs2, hl2]
      dsimp only
      have hje : jeqStr (jobjGet kvs2 "record_hash") (rowHash kvs2) = false := by
        apply Bool.eq_false_iff.mpr
        intro ht
        have hst2 := jeqStr_iff.mp ht
        rcases hd with ⟨hd1, hd2⟩ | ⟨hd1, hd2⟩
        · rw [hd2, hstored] at hst2
          injection hst2 with h1
          injection h1 with h2
          rw [rowHash, rowHash] at h2
          exact hd1 (sha256_bytes_inj h2).symm
        · have hrh : rowHash kvs2 = rowHash kvs := by rw [rowHash, rowHash, hd1]
          apply hd2
          rw [hst2, hrh]
          exact hstored.symm
      rw [rowOk_hash_fail hje]
  · intro pre post l l2 h3 h1 h2
    exact validateFileAux_congr h3 h1 h2 pre "GENESIS" post

set_option maxRecDepth 40000

/-- Witness for claim C2, at the one-line ledger `[mline]`: flipping a byte
inside the `prev_hash` value (`mlineVal`) is reported as a record hash
mismatch, while flipping the separator space to a tab (`mlineWs`) leaves
validation unchanged. -/
theorem claim_C2_byte_flip_detection_witness :
    validate_chain [mlineVal] = some (false, "record hash mismatch") ∧
    validate_chain [mlineWs] = validate_chain [mline] :=
  ⟨claim_C2_byte_flip_detection.1 [] [] mline mlineVal mrowParsed mrowValParsed
      (by decide) (by decide) (by decide) (by decide) (by decide)
      (Or.inl ⟨by decide, by decide⟩),
    claim_C2_byte_flip_detection.2 [] [] mline mlineWs (by decide) (by decide) (by decide)⟩

/-- Counterexample to claim C2 as stated: `[mline]` validates, `mlineWs`
differs from `mline` in exactly the one byte at index 24 (a separator
space turned into a tab), yet the tampered file still validates with
`(true, "ok")`. -/
theorem claim_C2_counterexample :
    validate_chain [mline] = some (true, "ok") ∧
    mlineWs = setCharAt mline 24 '\t' ∧
    mline.data.get? 24 = some ' ' ∧
    mlineWs ≠ mline ∧
    validate_chain [mlineWs] = some (true, "ok") :=
  ⟨by decide, rfl, by decide, by decide, by decide⟩

end Sentinel
